import Mathlib

/-!
Verification of the Orange-Catalog category-classification and
catalog-consolidation pipeline.

This file gives a shallow embedding, in Lean, of the Python scripts that the
specification describes, and proves (or refutes) the spec's claims about them.
Each embedded definition is translated directly from the corresponding Python
function; machine-level details that no claim touches (timestamps,
`lastUpdated` fields, logging output) are omitted, and Python dicts are
modelled as association lists that preserve insertion order.
-/

set_option maxRecDepth 100000

namespace PyStr

/-- Python `needle in hay` for strings: contiguous-substring containment,
on explicit character lists. -/
def listContains (hay needle : List Char) : Bool :=
  match hay with
  | [] => needle.isEmpty
  | _ :: t => needle.isPrefixOf hay || listContains t needle

/-- Python `needle in hay` on `String`. -/
def strIn (needle hay : String) : Bool :=
  listContains hay.data needle.data

/-- Python `s.lower()` restricted to ASCII, which is all the repository's
keyword tables use. -/
def lower (s : String) : String :=
  String.mk (s.data.map Char.toLower)

/-- Python `s.isdigit()` for ASCII strings: nonempty and all digits. -/
def isDigits (s : String) : Bool :=
  !s.data.isEmpty && s.data.all Char.isDigit

/-- Lookup in a Python dict modelled as an insertion-ordered association
list. -/
def alookup {α : Type} (k : String) : List (String × α) → Option α
  | [] => none
  | (k₁, v) :: t => if k₁ = k then some v else alookup k t

end PyStr

/-!
## `scraping_toolkit/extract_from_saved_html.py` — duplicate resolution (C10)

`main` folds the extracted records into the dict `all_products`, keyed by
`itemId`.  Only the length of `str(product)` is consulted when two records
share an id, so a record is modelled by its id together with its serialized
form.
-/

namespace ExtractSaved

open PyStr

/-- One normalized product record as it reaches the `all_products` fold in
`main`: its `itemId` and its Python-serialized form `str(product)` (only the
length of the latter is ever compared). -/
structure SRecord where
  itemId : String
  serialized : String
  deriving DecidableEq, Repr

/-- Python dict assignment `m[k] = p`: overwrite in place, keeping the key's
position. -/
def replaceVal (k : String) (p : SRecord) : List (String × SRecord) → List (String × SRecord)
  | [] => []
  | (k₁, v) :: t => (if k₁ = k then (k, p) else (k₁, v)) :: replaceVal k p t

/-- One iteration of the duplicate-resolution loop in `main`
(extract_from_saved_html.py lines 159-167): a new record replaces the stored
one only when its serialized form is strictly longer; a fresh id is inserted
at the end (Python dict insertion order). -/
def mergeStep (m : List (String × SRecord)) (p : SRecord) : List (String × SRecord) :=
  match alookup p.itemId m with
  | none => m ++ [(p.itemId, p)]
  | some q =>
      if q.serialized.length < p.serialized.length then replaceVal p.itemId p m
      else m

/-- The whole `all_products` accumulation over the records in encounter
order. -/
def mergeAll (ps : List SRecord) : List (String × SRecord) :=
  ps.foldl mergeStep []

/-- Records of `ps` carrying the itemId `pid`, in encounter order. -/
def sameId (ps : List SRecord) (pid : String) : List SRecord :=
  ps.filter (fun p => p.itemId == pid)

/-- Largest serialized length occurring in a record list. -/
def maxSer (l : List SRecord) : Nat :=
  (l.map (fun p => p.serialized.length)).foldr Nat.max 0

/-- The first record of `l` attaining the maximal serialized length. -/
def firstLongest (l : List SRecord) : Option SRecord :=
  l.find? (fun p => p.serialized.length == maxSer l)

theorem alookup_append_single (m : List (String × SRecord)) (k pid : String) (p : SRecord) :
    alookup pid (m ++ [(k, p)]) =
      match alookup pid m with
      | some v => some v
      | none => if k = pid then some p else none := by
  induction m with
  | nil => simp [alookup]
  | cons kv t ih =>
      rcases kv with ⟨k₁, v₁⟩
      by_cases h : k₁ = pid
      · simp [alookup, h]
      · simp [alookup, h, ih]

theorem alookup_map_replace (m : List (String × SRecord)) (k pid : String) (p : SRecord) :
    alookup pid (replaceVal k p m) =
      match alookup pid m with
      | some v => if k = pid then some p else some v
      | none => none := by
  induction m with
  | nil => simp [alookup, replaceVal]
  | cons kv t ih =>
      rcases kv with ⟨k₁, v₁⟩
      simp only [replaceVal]
      by_cases hk : k₁ = k
      · subst hk
        rw [if_pos rfl]
        by_cases hp : k₁ = pid
        · subst hp
          simp [alookup]
        · simp [alookup, hp, ih]
      · rw [if_neg hk]
        by_cases hp : k₁ = pid
        · subst hp
          simp [alookup, Ne.symm hk]
        · simp [alookup, hp, ih]

/-- Keep the stored record unless the new one is strictly longer. -/
def keepLonger (q p : SRecord) : SRecord :=
  if q.serialized.length < p.serialized.length then p else q

theorem lookup_mergeFold (ps : List SRecord) (m : List (String × SRecord)) (pid : String) :
    alookup pid (ps.foldl mergeStep m) =
      match alookup pid m with
      | none =>
          match sameId ps pid with
          | [] => none
          | q :: qs => some (qs.foldl keepLonger q)
      | some q => some ((sameId ps pid).foldl keepLonger q) := by
  induction ps generalizing m with
  | nil => cases h : alookup pid m <;> simp [sameId, h]
  | cons p t ih =>
      have hstep := ih (mergeStep m p)
      by_cases hid : p.itemId = pid
      · -- the head record has the id we are tracing
        have hfil : sameId (p :: t) pid = p :: sameId t pid := by
          simp [sameId, List.filter_cons, hid]
        cases hm : alookup pid m with
        | none =>
            have hm' : alookup p.itemId m = none := by rw [hid]; exact hm
            have hlk : alookup pid (mergeStep m p) = some p := by
              simp only [mergeStep, hm']
              rw [alookup_append_single, hm, hid]
              simp
            rw [List.foldl_cons, hstep, hlk, hfil]
        | some q =>
            have hm' : alookup p.itemId m = some q := by rw [hid]; exact hm
            by_cases hlt : q.serialized.length < p.serialized.length
            · have hlk : alookup pid (mergeStep m p) = some p := by
                simp only [mergeStep, hm', if_pos hlt]
                rw [alookup_map_replace, hm, hid]
                simp
              rw [List.foldl_cons, hstep, hlk, hfil]
              simp [hm, keepLonger, hlt]
            · have hlk : alookup pid (mergeStep m p) = some q := by
                simp only [mergeStep, hm', if_neg hlt]
                exact hm
              rw [List.foldl_cons, hstep, hlk, hfil]
              simp [hm, keepLonger, hlt]
      · -- head record for a different id: nothing about pid changes
        have hfil : sameId (p :: t) pid = sameId t pid := by
          simp [sameId, List.filter_cons, hid]
        have hlk : alookup pid (mergeStep m p) = alookup pid m := by
          cases hm : alookup p.itemId m with
          | none =>
              simp only [mergeStep, hm]
              rw [alookup_append_single]
              cases hmp : alookup pid m <;> simp [hid]
          | some q =>
              by_cases hlt : q.serialized.length < p.serialized.length
              · simp only [mergeStep, hm, if_pos hlt]
                rw [alookup_map_replace]
                cases hmp : alookup pid m <;> simp [hid]
              · simp only [mergeStep, hm, if_neg hlt]
        rw [List.foldl_cons, hstep, hlk, hfil]

theorem maxSer_cons (x : SRecord) (l : List SRecord) :
    maxSer (x :: l) = Nat.max x.serialized.length (maxSer l) := rfl

theorem le_maxSer_head (x : SRecord) (l : List SRecord) :
    x.serialized.length ≤ maxSer (x :: l) := by
  rw [maxSer_cons]; exact Nat.le_max_left _ _

theorem foldl_keepLonger_firstLongest (qs : List SRecord) (q : SRecord) :
    some (qs.foldl keepLonger q) = firstLongest (q :: qs) := by
  induction qs generalizing q with
  | nil =>
      simp [firstLongest, maxSer, List.find?]
  | cons p rest ih =>
      rw [List.foldl_cons, ih (keepLonger q p)]
      by_cases hlt : q.serialized.length < p.serialized.length
      · -- the newcomer is strictly longer: it supersedes q
        have hk : keepLonger q p = p := by simp [keepLonger, hlt]
        rw [hk]
        have hqlt : q.serialized.length < maxSer (p :: rest) :=
          lt_of_lt_of_le hlt (le_maxSer_head p rest)
        have hmax : maxSer (q :: p :: rest) = maxSer (p :: rest) := by
          rw [maxSer_cons q (p :: rest)]
          exact Nat.max_eq_right (le_of_lt hqlt)
        have hq : (q.serialized.length == maxSer (p :: rest)) = false := by
          simp only [beq_eq_false_iff_ne, ne_eq]
          omega
        simp only [firstLongest, hmax, List.find?, hq]
      · have hk : keepLonger q p = q := by simp [keepLonger, hlt]
        rw [hk]
        push_neg at hlt
        have hmax : maxSer (q :: p :: rest) = maxSer (q :: rest) := by
          rw [maxSer_cons q (p :: rest), maxSer_cons p rest, maxSer_cons q rest]
          simp only [Nat.max_def]
          split_ifs <;> omega
        by_cases hq : q.serialized.length = maxSer (q :: rest)
        · have hq₁ : (q.serialized.length == maxSer (q :: rest)) = true := by
            simp [hq]
          simp only [firstLongest, hmax, List.find?, hq₁]
        · have hq₁ : (q.serialized.length == maxSer (q :: rest)) = false := by
            simp [hq]
          have hqlt : q.serialized.length < maxSer (q :: rest) :=
            lt_of_le_of_ne (le_maxSer_head q rest) hq
          have hp : (p.serialized.length == maxSer (q :: rest)) = false := by
            simp only [beq_eq_false_iff_ne, ne_eq]
            omega
          simp only [firstLongest, hmax, List.find?, hq₁, hp]

end ExtractSaved

/-- Claim C10: in the duplicate-resolution fold of
`extract_from_saved_html.main`, a stored record is replaced only by a strictly
longer-serialized record and ties keep the first-encountered record, so the
survivor for each itemId is exactly the first record (in iteration order)
attaining the maximal serialized length among the records with that id. -/
theorem C10_duplicate_resolution_first_longest (ps : List ExtractSaved.SRecord) (pid : String) :
    PyStr.alookup pid (ExtractSaved.mergeAll ps)
      = ExtractSaved.firstLongest (ExtractSaved.sameId ps pid) := by
  rw [ExtractSaved.mergeAll, ExtractSaved.lookup_mergeFold]
  simp only [PyStr.alookup]
  cases h : ExtractSaved.sameId ps pid with
  | nil => simp [ExtractSaved.firstLongest, List.find?]
  | cons q qs => exact ExtractSaved.foldl_keepLonger_firstLongest qs q

/-!
## `scripts/categorize_scraped_products.py` — keyword classification (C7)

`categorize_product(title, slug)` is a chain of plain Python substring tests
over the lowercased title (the lowercased slug is computed but never read).
The transcription below follows the source line by line.
-/

namespace Categorize

open PyStr

/-- `categorize_product` from categorize_scraped_products.py lines 74-285:
returns the `(category, subcategory)` pair for a product title/slug. -/
def categorize_product (title slug : String) : String × Option String :=
  let t := lower title
  let slug_lower := lower slug
  -- Tools
  if strIn "drill" t || strIn "driver" t || strIn "impact" t then
    if strIn "hammer" t then ("tools", some "drills/hammer-drills")
    else if strIn "impact" t && strIn "driver" t then ("tools", some "drills/impact-drivers")
    else if strIn "angle" t then ("tools", some "drills/angle-drills")
    else ("tools", some "drills/other")
  else if strIn "saw" t || strIn "miter" t || strIn "circular" t || strIn "table saw" t
      || strIn "reciprocating" t || strIn "jigsaw" t || strIn "band saw" t then
    if strIn "miter" t then ("tools", some "saws/miter-saws")
    else if strIn "circular" t then ("tools", some "saws/circular-saws")
    else if strIn "table" t then ("tools", some "saws/table-saws")
    else if strIn "reciprocating" t then ("tools", some "saws/reciprocating-saws")
    else if strIn "jigsaw" t || strIn "jig saw" t then ("tools", some "saws/jigsaws")
    else if strIn "band" t then ("tools", some "saws/band-saws")
    else ("tools", some "saws/other")
  else if strIn "nailer" t || strIn "nail gun" t || strIn "framing nailer" t
      || strIn "finish nailer" t || strIn "brad nailer" t || strIn "stapler" t then
    if strIn "framing" t then ("tools", some "nailers/framing")
    else if strIn "finish" t then ("tools", some "nailers/finishing")
    else if strIn "roofing" t then ("tools", some "nailers/roofing")
    else if strIn "flooring" t then ("tools", some "nailers/flooring")
    else if strIn "pneumatic" t then ("tools", some "nailers/pneumatic")
    else ("tools", some "nailers/other")
  else if strIn "grinder" t then ("tools", some "grinders")
  else if strIn "sander" t then ("tools", some "sanders")
  else if strIn "planer" t then ("tools", some "planers")
  else if strIn "router" t && strIn "wood" t then ("tools", some "routers")
  else if strIn "air compressor" t || strIn "compressor" t then
    if strIn "portable" t then ("tools", some "air-compressors/portable")
    else if strIn "stationary" t then ("tools", some "air-compressors/stationary")
    else ("tools", some "air-compressors/other")
  else if strIn "battery" t && (strIn "volt" t || strIn "ah" t) then ("tools", some "batteries")
  else if strIn "combo kit" t || strIn "power tool kit" t then ("tools", some "combo-kits")
  else if strIn "polisher" t then ("tools", some "sanders")
  else if strIn "rotary hammer" t then ("tools", some "drills/hammer-drills")
  -- Appliances
  else if strIn "refrigerator" t || strIn "fridge" t then
    if strIn "french door" t then ("appliances", some "refrigerators/french-door")
    else if strIn "side by side" t || strIn "side-by-side" t then
      ("appliances", some "refrigerators/side-by-side")
    else if strIn "top freezer" t then ("appliances", some "refrigerators/top-freezer")
    else if strIn "bottom freezer" t then ("appliances", some "refrigerators/bottom-freezer")
    else if strIn "mini" t || strIn "compact" t then ("appliances", some "refrigerators/mini-fridges")
    else ("appliances", some "refrigerators/other")
  else if strIn "washer" t || strIn "dryer" t then ("appliances", some "washers-dryers")
  else if strIn "dishwasher" t then ("appliances", some "dishwashers")
  else if strIn "microwave" t then ("appliances", some "microwaves")
  else if strIn "range" t || strIn "stove" t || strIn "oven" t then
    if strIn "wall oven" t then ("appliances", some "wall-ovens")
    else ("appliances", some "ranges")
  else if strIn "cooktop" t then ("appliances", some "cooktops")
  else if strIn "air conditioner" t || strIn "ac unit" t then ("appliances", some "air-conditioners")
  else if strIn "fan" t && (strIn "ceiling" t || strIn "tower" t || strIn "box" t) then
    ("appliances", some "fans")
  else if strIn "vacuum" t then ("appliances", some "floor-care")
  -- Furniture
  else if strIn "sofa" t || strIn "couch" t || strIn "loveseat" t || strIn "sectional" t
      || strIn "recliner" t then ("furniture", some "living-room")
  else if strIn "bed frame" t || strIn "mattress" t || strIn "headboard" t
      || strIn "nightstand" t || strIn "dresser" t || strIn "bedroom" t then
    ("furniture", some "bedroom")
  else if strIn "dining table" t || strIn "dining chair" t || strIn "dining set" t then
    ("furniture", some "dining")
  else if strIn "desk" t || strIn "office chair" t || strIn "bookcase" t
      || strIn "bookshelf" t then ("furniture", some "office")
  else if (strIn "patio" t || strIn "outdoor" t)
      && (strIn "chair" t || strIn "lounge" t || strIn "seating" t) then
    ("furniture", some "outdoor")
  else if (strIn "patio" t || strIn "outdoor" t) && strIn "table" t then
    ("furniture", some "outdoor")
  else if (strIn "patio" t || strIn "outdoor" t) && strIn "set" t then
    ("furniture", some "outdoor")
  else if strIn "chair" t || strIn "arm chair" t then ("furniture", some "living-room")
  else if strIn "table" t && strIn "accent" t then ("furniture", some "living-room")
  else if strIn "coffee table" t then ("furniture", some "living-room")
  -- Home Decor
  else if strIn "rug" t || strIn "carpet" t then ("home-decor", some "rugs")
  else if strIn "curtain" t || strIn "drape" t then ("home-decor", some "curtains")
  else if strIn "mirror" t then ("home-decor", some "mirrors")
  else if strIn "wall art" t || strIn "canvas" t || strIn "picture frame" t
      || strIn "digital frame" t then ("home-decor", some "wall-art")
  else if strIn "bedding" t || strIn "comforter" t || strIn "sheet" t || strIn "pillow" t then
    ("home-decor", some "bedding")
  else if strIn "artificial" t && (strIn "plant" t || strIn "tree" t || strIn "flower" t) then
    ("home-decor", some "artificial-plants/other")
  -- Electrical
  else if strIn "switch" t && (strIn "light" t || strIn "smart" t || strIn "dimmer" t) then
    ("electrical", some "outlets")
  else if strIn "outlet" t || strIn "receptacle" t then ("electrical", some "outlets")
  else if strIn "led" t && (strIn "light" t || strIn "strip" t || strIn "fixture" t) then
    ("electrical", some "lighting")
  else if strIn "wire" t || strIn "cable" t then ("electrical", some "wire-cable")
  else if strIn "breaker" t then ("electrical", some "breakers")
  -- Garage
  else if strIn "garage door" t then ("garage", some "doors")
  else if strIn "floor coating" t || strIn "garage floor" t then ("garage", some "flooring")
  -- Storage
  else if strIn "shelf" t || strIn "shelving" t then ("storage", some "shelving")
  else if strIn "bin" t || strIn "tote" t || strIn "storage container" t then
    ("storage", some "bins-totes")
  -- Smart Home / Security
  else if strIn "security camera" t || strIn "doorbell" t || strIn "smart lock" t then
    ("smart-home", some "security")
  else if strIn "smart" t && (strIn "speaker" t || strIn "display" t) then
    ("smart-home", some "speakers")
  -- Solar / Power
  else if strIn "solar" t && (strIn "panel" t || strIn "battery" t || strIn "charger" t) then
    ("solar", some "panels")
  else if strIn "power bank" t || strIn "portable charger" t then ("solar", some "batteries")
  -- Default
  else ("other", none)

end Categorize

/-- Claim C7, counterexample: on the title the spec quotes, the code does not
return the pair ("appliances", "french-door"); the subcategory string it
actually produces is "refrigerators/french-door". -/
theorem C7_counterexample_subcategory_string :
    Categorize.categorize_product "GE 27 cu. ft. French Door Refrigerator" "GE"
      ≠ ("appliances", some "french-door") := by decide

/-- Claim C7 as amended: `categorize_product` is a pure function of the title
alone (the slug argument is never read), and on the title
"GE 27 cu. ft. French Door Refrigerator" it returns
("appliances", "refrigerators/french-door") whatever the slug. -/
theorem C7_classification_deterministic (slug : String) :
    Categorize.categorize_product "GE 27 cu. ft. French Door Refrigerator" slug
      = ("appliances", some "refrigerators/french-door") := by
  rfl

/-!
## A tiny regex interpreter

`cleanup_categories.py` relies on `re.search` with patterns built from word
boundaries, literal words, `\s*` gaps, `.*` gaps, alternation and negative
lookahead.  The interpreter below covers exactly those constructs, in
continuation-passing style, tracking the previous character so that `\b` can
be decided.
-/

namespace Rex

/-- Regular expressions: empty, never-matching, literal string, one-character
class, Kleene star over a one-character class, sequence, alternation, word
boundary, negative lookahead. -/
inductive RE where
  | eps : RE
  | nul : RE
  | lit : List Char → RE
  | cls : (Char → Bool) → RE
  | starCls : (Char → Bool) → RE
  | seq : RE → RE → RE
  | alt : RE → RE → RE
  | wb : RE
  | nla : RE → RE

/-- Word character for `\b`: `[a-zA-Z0-9_]`. -/
def isWord (c : Char) : Bool :=
  c.isAlpha || c.isDigit || c = '_'

def isWordOpt : Option Char → Bool
  | none => false
  | some c => isWord c

def isWordNext : List Char → Bool
  | [] => false
  | c :: _ => isWord c

/-- Python `\s` over ASCII. -/
def ws (c : Char) : Bool :=
  c = ' ' || c = '\t' || c = '\n' || c = '\x0b' || c = '\x0c' || c = '\r'

/-- Regex `.` (any character but newline). -/
def dot (c : Char) : Bool :=
  c != '\n'

/-- Matching a literal, character by character. -/
def matchLit (l : List Char) (prev : Option Char) (s : List Char)
    (k : Option Char → List Char → Bool) : Bool :=
  match l, s with
  | [], _ => k prev s
  | _ :: _, [] => false
  | a :: l₁, c :: s₁ => a == c && matchLit l₁ (some c) s₁ k

/-- Matching `p*` for a one-character class `p`: succeed with any number of
consumed class characters. -/
def matchStar (p : Char → Bool) (prev : Option Char) (s : List Char)
    (k : Option Char → List Char → Bool) : Bool :=
  k prev s ||
    match s with
    | [] => false
    | c :: rest => p c && matchStar p (some c) rest k

/-- Anchored matching of `re` at the start of `s`, with `prev` the character
just before `s` (for word boundaries) and `k` the continuation. -/
def matchRE : RE → Option Char → List Char → (Option Char → List Char → Bool) → Bool
  | .eps, prev, s, k => k prev s
  | .nul, _, _, _ => false
  | .lit l, prev, s, k => matchLit l prev s k
  | .cls p, _, s, k =>
      match s with
      | [] => false
      | c :: rest => p c && k (some c) rest
  | .starCls p, prev, s, k => matchStar p prev s k
  | .seq a b, prev, s, k => matchRE a prev s (fun p₁ s₁ => matchRE b p₁ s₁ k)
  | .alt a b, prev, s, k => matchRE a prev s k || matchRE b prev s k
  | .wb, prev, s, k => (isWordOpt prev != isWordNext s) && k prev s
  | .nla r, prev, s, k => !(matchRE r prev s (fun _ _ => true)) && k prev s

/-- `re.search` scanning: try to match at every start position. -/
def searchFrom (re : RE) (prev : Option Char) (s : List Char) : Bool :=
  matchRE re prev s (fun _ _ => true) ||
    match s with
    | [] => false
    | c :: rest => searchFrom re (some c) rest

/-- Python `re.search(pattern, s) is not None` (as a Bool). -/
def pysearch (re : RE) (s : String) : Bool :=
  searchFrom re none s.data

/-- Sequence a list of regexes. -/
def sq (l : List RE) : RE :=
  l.foldr .seq .eps

/-- Alternation over a list of regexes. -/
def anyOf (l : List RE) : RE :=
  l.foldr .alt .nul

/-- `\bword\b`. -/
def W (w : String) : RE :=
  sq [.wb, .lit w.data, .wb]

/-- `\ba\s*b\b`. -/
def W2 (a b : String) : RE :=
  sq [.wb, .lit a.data, .starCls ws, .lit b.data, .wb]

end Rex

/-!
## `scripts/cleanup_categories.py` — the conservative re-classifier (C1, C2, C4, C8)
-/

namespace Cleanup

open PyStr Rex

/-- The fields of a catalog product record that cleanup_categories.py reads
(`product.get("productId"/"title"/"brand"/"subcategory", ...)`). -/
structure CProduct where
  productId : String
  title : String
  brand : String
  subcategory : String
  deriving DecidableEq, Repr

/-- `NON_APPLIANCE_BRANDS` (cleanup_categories.py lines 207-212). -/
def NON_APPLIANCE_BRANDS : List String :=
  ["StyleWell", "HOMESTYLES", "FUFU&GAGA", "US Pride Furniture",
   "NATURAE DECOR", "Lincoln Electric", "KOHLER", "American Standard",
   "Delta", "Moen", "Pfister",
   "National Tree Company", "Nearly Natural"]

/-- `APPLIANCE_BRANDS` (cleanup_categories.py lines 215-220). -/
def APPLIANCE_BRANDS : List String :=
  ["GE", "LG", "Samsung", "Whirlpool", "Frigidaire", "KitchenAid",
   "Maytag", "Bosch", "Electrolux", "Kenmore", "Amana", "Hotpoint",
   "Haier", "Vissani", "Magic Chef", "Summit Appliance", "ZLINE",
   "Thor Kitchen", "InSinkErator", "Dyson", "Shark", "iRobot"]

/-- `CATEGORY_RULES["appliances"]["keywords"]` (lines 33-44). -/
def appliancesKeywords : List RE :=
  [W "refrigerator", W "fridge", W "freezer",
   W "washer", W "dryer", W "laundry",
   W "dishwasher", W "microwave",
   W "oven", sq [.wb, .lit "range".data, .wb, .nla (sq [.starCls ws, .lit "hood".data])],
   W "cooktop", W "stove",
   W2 "range" "hood", W2 "vent" "hood",
   W2 "garbage" "disposal", W "disposal",
   W2 "ice" "maker", W2 "beverage" "cooler", W2 "wine" "cooler",
   W2 "air" "conditioner", W "dehumidifier", W "humidifier",
   sq [.wb, .lit "vacuum".data, .wb, .nla (sq [.starCls dot, .lit "seal".data])],
   W2 "floor" "care",
   W2 "compact" "kitchen"]

/-- `\bfaucet\b`. -/
def faucetRE : RE := W "faucet"

/-- `\bcart\b|\bcabinet\b|\bsideboard\b|\bbuffet\b|\bchair\b` (line 284). -/
def cartCabinetRE : RE :=
  anyOf [W "cart", W "cabinet", W "sideboard", W "buffet", W "chair"]

/-- `\bartificial\b|\bhydrangea\b|\bplant\b` (line 290). -/
def artificialWordRE : RE :=
  anyOf [W "artificial", W "hydrangea", W "plant"]

/-- `\bwasher\b|\bdryer\b|\blaundry\b` (line 315). -/
def washerDryerRE : RE :=
  anyOf [W "washer", W "dryer", W "laundry"]

/-- `\barm\s*chair\b|\bvelvet\s*chair\b|\baccent\s*chair\b` (line 317). -/
def armChairRE : RE :=
  anyOf [W2 "arm" "chair", W2 "velvet" "chair", W2 "accent" "chair"]

/-- `\bartificial\b.*\b(plant|flower|hydrangea|arrangement)\b` (line 319). -/
def artificialThingRE : RE :=
  sq [.wb, .lit "artificial".data, .wb, .starCls dot, .wb,
    anyOf [.lit "plant".data, .lit "flower".data, .lit "hydrangea".data,
      .lit "arrangement".data], .wb]

/-- `\bwelder\b|\bwelding\b` (line 321). -/
def welderRE : RE := anyOf [W "welder", W "welding"]

/-- `\btable\s*saw\b|\bmiter\s*saw\b|\bcircular\s*saw\b` (line 323). -/
def sawsRE : RE := anyOf [W2 "table" "saw", W2 "miter" "saw", W2 "circular" "saw"]

/-- `\bkitchen\s*cart\b|\brolling\s*cart\b|\bisland\s*cart\b` (line 325). -/
def cartsRE : RE := anyOf [W2 "kitchen" "cart", W2 "rolling" "cart", W2 "island" "cart"]

/-- `\bbuffet\b|\bsideboard\b` (line 327). -/
def buffetRE : RE := anyOf [W "buffet", W "sideboard"]

/-- `\bwine\s*cooler\b|\bbeverage\s*cooler\b|\bwine\s*cellar\b|\bwine\s*refrigerator\b`
(line 336). -/
def wineCoolerRE : RE :=
  anyOf [W2 "wine" "cooler", W2 "beverage" "cooler", W2 "wine" "cellar",
    W2 "wine" "refrigerator"]

/-- `\brefrigerator\b|\bfreezer\b(?!\s*bag)|\bfridge\b` (line 343). -/
def refrigeratorRE : RE :=
  anyOf [W "refrigerator",
    sq [.wb, .lit "freezer".data, .wb, .nla (sq [.starCls ws, .lit "bag".data])],
    W "fridge"]

/-- `\btable\s*saw\b|\bmiter\s*saw\b|\bbreaker\s*hammer\b|\bdemolition\b` (line 371). -/
def problemToolsRE : RE :=
  anyOf [W2 "table" "saw", W2 "miter" "saw", W2 "breaker" "hammer", W "demolition"]

/-- `\bvanity\s*table\b|\bmakeup\s*vanity\b|\bdressing\s*table\b` (line 375). -/
def vanityRE : RE :=
  anyOf [W2 "vanity" "table", W2 "makeup" "vanity", W2 "dressing" "table"]

/-- Priorities 3-5 of `classify_product` (lines 330-378): the code that runs
once the two brand-based blocks and the `current == "appliances"` block have
fallen through. -/
def classifyTail (title current_category : String) : Option String :=
  if (current_category == "other" || current_category == "storage")
      && pysearch wineCoolerRE title then some "appliances"
  else if !(current_category == "appliances") && pysearch refrigeratorRE title then
    some "appliances"
  else if current_category == "garage" then none
  else if current_category == "outdoors" then none
  else if current_category == "home-decor" then none
  else if current_category == "electrical" || current_category == "other"
      || current_category == "storage" then
    if pysearch problemToolsRE title then some "tools"
    else if pysearch vanityRE title then some "furniture"
    else none
  else none

/-- The body of `CategoryCleanup.classify_product` (cleanup_categories.py
lines 262-378) after its two local bindings: `title` is the lowercased
product title and `brand` the raw brand string.  Returns the suggested
category, or `none` for "keep the product where it is". -/
def classifyBody (title brand current_category : String) : Option String :=
  -- PRIORITY 1: brand-based rules
  if NON_APPLIANCE_BRANDS.contains brand && current_category == "appliances" then
    if pysearch faucetRE title then some "other"
    else if pysearch cartCabinetRE title then some "furniture"
    else if ["StyleWell", "HOMESTYLES", "FUFU&GAGA", "US Pride Furniture"].contains brand then
      some "furniture"
    else if brand == "NATURAE DECOR" || pysearch artificialWordRE title then
      some "home-decor"
    else some "other"
  else if APPLIANCE_BRANDS.contains brand && !(current_category == "appliances")
      && appliancesKeywords.any (fun r => pysearch r title) then
    some "appliances"
  -- PRIORITY 2: clear keyword mismatches inside appliances
  else if current_category == "appliances" then
    if APPLIANCE_BRANDS.contains brand then none
    else if pysearch faucetRE title && !pysearch washerDryerRE title then some "other"
    else if pysearch armChairRE title then some "furniture"
    else if pysearch artificialThingRE title then some "home-decor"
    else if pysearch welderRE title then some "tools"
    else if pysearch sawsRE title then some "tools"
    else if pysearch cartsRE title then some "furniture"
    else if pysearch buffetRE title then some "furniture"
    else classifyTail title current_category
  else classifyTail title current_category

/-- `CategoryCleanup.classify_product`: bind `title = product.title.lower()`
and `brand = product.brand` and run the rule chain. -/
def classify_product (product : CProduct) (current_category : String) : Option String :=
  classifyBody (lower product.title) product.brand current_category

end Cleanup

/-- Claim C8: a product titled "StyleWell Rolling Kitchen Cart" with brand
"StyleWell" currently filed under "appliances" is always re-classified to
"furniture" (brand deny-list hit plus the cart keyword), whatever its
productId and recorded subcategory. -/
theorem C8_stylewell_denylist_reclassified (pid sub : String) :
    Cleanup.classify_product ⟨pid, "StyleWell Rolling Kitchen Cart", "StyleWell", sub⟩
      "appliances" = some "furniture" := by
  rfl

/-- Claim C2, counterexample: re-classification is not idempotent.  For the
product titled "Refrigerator Rolling Cart" the classifier suggests moving
from "appliances" to "furniture", and then suggests moving the same product
from "furniture" back to "appliances" — the claim requires the second call to
return `none`. -/
theorem C2_counterexample_oscillation :
    Cleanup.classify_product ⟨"100000001", "Refrigerator Rolling Cart", "", ""⟩
        "appliances" = some "furniture"
      ∧ Cleanup.classify_product ⟨"100000001", "Refrigerator Rolling Cart", "", ""⟩
        "furniture" = some "appliances" := by
  constructor
  · decide
  · decide

/-- Helper for C2: a suggestion produced by the fall-through priorities 3-5
is never the current category. -/
theorem classifyTail_ne_current (t c x : String)
    (h : Cleanup.classifyTail t c = some x) : x ≠ c := by
  intro heq
  subst heq
  delta Cleanup.classifyTail at h
  revert h
  generalize Rex.pysearch Cleanup.wineCoolerRE t = bWC
  generalize Rex.pysearch Cleanup.refrigeratorRE t = bRE
  generalize Rex.pysearch Cleanup.problemToolsRE t = bPT
  generalize Rex.pysearch Cleanup.vanityRE t = bVA
  intro h
  repeat' split at h
  all_goals
    first
    | exact Option.noConfusion h
    | (obtain rfl := Option.some.inj h
       simp_all only [Bool.and_eq_true, Bool.or_eq_true, beq_iff_eq, Bool.not_eq_true]
       simp_all)

set_option maxHeartbeats 3000000 in
/-- Claim C2 as amended: a suggestion returned by `classify_product` is never
the current category itself (a single pass never proposes a self-move), but a
suggestion need not be a fixed point: repeated passes can oscillate a product
between two categories, as the counterexample shows. -/
theorem C2_suggestion_never_current (p : Cleanup.CProduct) (current c : String)
    (h : Cleanup.classify_product p current = some c) : c ≠ current := by
  intro heq
  subst heq
  delta Cleanup.classify_product Cleanup.classifyBody at h
  revert h
  generalize PyStr.lower p.title = t
  generalize Cleanup.NON_APPLIANCE_BRANDS.contains p.brand = bNA
  generalize Cleanup.APPLIANCE_BRANDS.contains p.brand = bAP
  generalize List.contains ["StyleWell", "HOMESTYLES", "FUFU&GAGA", "US Pride Furniture"] p.brand = bFB
  generalize (p.brand == "NATURAE DECOR") = bND
  generalize (Cleanup.appliancesKeywords.any fun r => Rex.pysearch r t) = bKW
  generalize Rex.pysearch Cleanup.faucetRE t = bFa
  generalize Rex.pysearch Cleanup.cartCabinetRE t = bCC
  generalize Rex.pysearch Cleanup.artificialWordRE t = bAW
  generalize Rex.pysearch Cleanup.washerDryerRE t = bWD
  generalize Rex.pysearch Cleanup.armChairRE t = bAC
  generalize Rex.pysearch Cleanup.artificialThingRE t = bAT
  generalize Rex.pysearch Cleanup.welderRE t = bWE
  generalize Rex.pysearch Cleanup.sawsRE t = bSW
  generalize Rex.pysearch Cleanup.cartsRE t = bCA
  generalize Rex.pysearch Cleanup.buffetRE t = bBU
  intro h
  repeat' split at h
  all_goals
    first
    | exact Option.noConfusion h
    | exact absurd rfl (classifyTail_ne_current t c c h)
    | (obtain rfl := Option.some.inj h
       simp_all only [Bool.and_eq_true, Bool.or_eq_true, beq_iff_eq, Bool.not_eq_true]
       simp_all)

/-- Witness for C2_suggestion_never_current at a concrete input. -/
theorem C2_suggestion_never_current_witness :
    Cleanup.classify_product ⟨"100000001", "Refrigerator Rolling Cart", "", ""⟩
        "appliances" = some "furniture"
      ∧ "furniture" ≠ "appliances" :=
  ⟨by decide,
   C2_suggestion_never_current ⟨"100000001", "Refrigerator Rolling Cart", "", ""⟩
     "appliances" "furniture" (by decide)⟩

/-!
## `scraping_toolkit/process_all_saved_html.py` — product-id extraction (C5, C6)

`extract_product_ids` (identical, line for line, in
`scraping_toolkit/parse_manual_html.py`) runs four harvesting passes over the
parsed page and accumulates ids into one list, deduplicated by first
occurrence.  The BeautifulSoup/json plumbing is abstracted into a `Page`
record holding, in document order, exactly the raw candidates each pass
iterates over; the acceptance logic applied to those candidates is
transcribed from the source.
-/

namespace ExtractIds

open PyStr

/-- A parsed page, as the four extraction passes see it:
`dataProductIdAttrs` are the values of `data-product-id` attributes,
`anchorHrefs` the href strings of anchors, `jsonLdFields` the stringified
`sku`/`productID`/`itemId` values harvested from well-formed JSON-LD blocks
in order, and `scriptTexts` the bodies of script tags that have one. -/
structure Page where
  dataProductIdAttrs : List String
  anchorHrefs : List String
  jsonLdFields : List String
  scriptTexts : List String
  deriving Repr

/-- One attempted match of `/p/[^/]+/(\d{9,})` at the head of the input:
literal `/p/`, a nonempty run without `/`, a `/`, then a maximal digit run
that must have at least 9 digits (the capture).  Returns the captured digits
and the rest of the input after the match. -/
def matchSlashP (cs : List Char) : Option (String × List Char) :=
  match cs with
  | '/' :: 'p' :: '/' :: rest =>
      if (rest.takeWhile (fun c => c ≠ '/')).isEmpty then none
      else
        match rest.dropWhile (fun c => c ≠ '/') with
        | '/' :: rest₂ =>
            if 9 ≤ (rest₂.takeWhile Char.isDigit).length then
              some (String.mk (rest₂.takeWhile Char.isDigit),
                rest₂.drop (rest₂.takeWhile Char.isDigit).length)
            else none
        | _ => none
  | _ => none

/-- `re.findall(r'/p/[^/]+/(\d{9,})', href)`: scan left to right, resume
after each non-overlapping match. -/
def pScan : Nat → List Char → List String
  | 0, _ => []
  | _ + 1, [] => []
  | fuel + 1, c :: rest =>
      match matchSlashP (c :: rest) with
      | some (pid, after) => pid :: pScan fuel after
      | none => pScan fuel rest

def pMatches (s : String) : List String :=
  pScan s.data.length s.data

/-- Drop one leading double quote when present (the optional `"?`). -/
def skipQuote : List Char → List Char
  | '"' :: r => r
  | r => r

/-- The tail of the script-id pattern after `"key":` has been consumed:
`\s*` then an optional quote, then at least 9 captured digits, then an
optional quote. -/
def matchAfterColon (r₁ : List Char) : Option (String × List Char) :=
  if 9 ≤ ((skipQuote (r₁.dropWhile Rex.ws)).takeWhile Char.isDigit).length then
    some (String.mk ((skipQuote (r₁.dropWhile Rex.ws)).takeWhile Char.isDigit),
      skipQuote ((skipQuote (r₁.dropWhile Rex.ws)).drop
        ((skipQuote (r₁.dropWhile Rex.ws)).takeWhile Char.isDigit).length))
  else none

/-- One attempted match of `"(?:productId|itemId|sku)":\s*"?(\d{9,})"?` at the
head of the input. -/
def matchScriptId (cs : List Char) : Option (String × List Char) :=
  match cs with
  | '"' :: rest =>
      match
        (if ("productId\":".data).isPrefixOf rest then
          some (rest.drop ("productId\":".data).length)
        else if ("itemId\":".data).isPrefixOf rest then
          some (rest.drop ("itemId\":".data).length)
        else if ("sku\":".data).isPrefixOf rest then
          some (rest.drop ("sku\":".data).length)
        else none) with
      | none => none
      | some r₁ => matchAfterColon r₁
  | _ => none

/-- `re.findall` for the script-variable pattern. -/
def sScan : Nat → List Char → List String
  | 0, _ => []
  | _ + 1, [] => []
  | fuel + 1, c :: rest =>
      match matchScriptId (c :: rest) with
      | some (pid, after) => pid :: sScan fuel after
      | none => sScan fuel rest

def sMatches (s : String) : List String :=
  sScan s.data.length s.data

/-- Method 1 (lines 20-24): `data-product-id` attribute values, accepted when
truthy, purely numeric, and at least 8 characters long. -/
def method1 (acc : List String) (attrs : List String) : List String :=
  attrs.foldl
    (fun acc pid =>
      if pid ≠ "" && isDigits pid && decide (8 ≤ pid.length) && !acc.contains pid
      then acc ++ [pid] else acc)
    acc

/-- Method 2 (lines 26-33): anchors whose href contains `/p/`, ids taken from
the product-URL regex (which requires at least 9 digits). -/
def method2 (acc : List String) (hrefs : List String) : List String :=
  hrefs.foldl
    (fun acc href =>
      if strIn "/p/" href then
        (pMatches href).foldl
          (fun acc pid => if !acc.contains pid then acc ++ [pid] else acc) acc
      else acc)
    acc

/-- Method 3 (lines 35-54): JSON-LD field values, accepted when purely
numeric and at least 8 characters long. -/
def method3 (acc : List String) (fields : List String) : List String :=
  fields.foldl
    (fun acc pid =>
      if isDigits pid && decide (8 ≤ pid.length) && !acc.contains pid
      then acc ++ [pid] else acc)
    acc

/-- Method 4 (lines 56-62): the embedded-JSON regex over script bodies
(which requires at least 9 digits). -/
def method4 (acc : List String) (scripts : List String) : List String :=
  scripts.foldl
    (fun acc txt =>
      if txt ≠ "" then
        (sMatches txt).foldl
          (fun acc pid => if !acc.contains pid then acc ++ [pid] else acc) acc
      else acc)
    acc

/-- `extract_product_ids` (process_all_saved_html.py lines 15-64, and
verbatim in parse_manual_html.py lines 15-67): all four methods run, in this
order, over one shared accumulator. -/
def extract_product_ids (page : Page) : List String :=
  method4
    (method3
      (method2
        (method1 [] page.dataProductIdAttrs)
        page.anchorHrefs)
      page.jsonLdFields)
    page.scriptTexts

end ExtractIds

namespace ExtractIds

open PyStr

theorem foldl_keeps {β : Type} (f : List String → β → List String)
    (hext : ∀ a x, ∃ r, f a x = a ++ r)
    (hnd : ∀ a x, a.Nodup → (f a x).Nodup) :
    ∀ (l : List β) (a : List String),
      (∃ r, l.foldl f a = a ++ r) ∧ (a.Nodup → (l.foldl f a).Nodup) := by
  intro l
  induction l with
  | nil => intro a; exact ⟨⟨[], by simp⟩, fun h => h⟩
  | cons x t ih =>
      intro a
      obtain ⟨r₀, hr₀⟩ := hext a x
      obtain ⟨⟨r₁, hr₁⟩, hnd₁⟩ := ih (f a x)
      refine ⟨⟨r₀ ++ r₁, ?_⟩, fun ha => hnd₁ (hnd a x ha)⟩
      rw [List.foldl_cons, hr₁, hr₀, List.append_assoc]

theorem guarded_append_keeps (a : List String) (p : String) (b : Bool)
    (hb : b = true → p ∉ a) :
    (∃ r, (if b then a ++ [p] else a) = a ++ r)
      ∧ (a.Nodup → (if b then a ++ [p] else a).Nodup) := by
  cases b with
  | false => exact ⟨⟨[], by simp⟩, fun h => by simpa using h⟩
  | true =>
      refine ⟨⟨[p], by simp⟩, fun h => ?_⟩
      rw [if_pos rfl, List.nodup_append]
      exact ⟨h, List.nodup_singleton p, by
        intro x hx hx1
        rcases List.mem_singleton.mp hx1 with rfl
        exact hb rfl hx⟩

theorem not_contains_not_mem (a : List String) (p : String)
    (h : (!a.contains p) = true) : p ∉ a := by
  simpa using h

theorem foldl_mem {β : Type} (f : List String → β → List String) (GOOD : String → Prop)
    (hf : ∀ a x p, p ∈ f a x → p ∈ a ∨ GOOD p) :
    ∀ (l : List β) (a : List String) (p : String),
      p ∈ l.foldl f a → p ∈ a ∨ GOOD p := by
  intro l
  induction l with
  | nil => intro a p hp; exact Or.inl hp
  | cons x t ih =>
      intro a p hp
      rcases ih (f a x) p hp with h | h
      · exact hf a x p h
      · exact Or.inr h

end ExtractIds

namespace ExtractIds

open PyStr

theorem matchSlashP_good (cs : List Char) (pid : String) (after : List Char)
    (h : matchSlashP cs = some (pid, after)) :
    isDigits pid = true ∧ 9 ≤ pid.length := by
  unfold matchSlashP at h
  split at h
  case h_2 => exact Option.noConfusion h
  case h_1 a rest =>
    split at h
    · exact Option.noConfusion h
    · split at h
      case h_2 => exact Option.noConfusion h
      case h_1 x rest₂ hdw =>
        split at h
        · rename_i hds
          have hpid : pid = String.mk (rest₂.takeWhile Char.isDigit) :=
            (congrArg Prod.fst (Option.some.inj h)).symm
          subst hpid
          refine ⟨?_, ?_⟩
          · simp only [isDigits]
            have hall : (rest₂.takeWhile Char.isDigit).all Char.isDigit = true := by
              rw [List.all_eq_true]
              intro c hc
              exact List.mem_takeWhile_imp hc
            have hne : (rest₂.takeWhile Char.isDigit).isEmpty = false := by
              rw [List.isEmpty_eq_false_iff_exists_mem]
              have : 0 < (rest₂.takeWhile Char.isDigit).length := by omega
              exact List.exists_mem_of_length_pos this
            simp [hne, hall]
          · simpa [String.length] using hds
        · exact Option.noConfusion h

theorem matchAfterColon_good (r₁ : List Char) (pid : String) (after : List Char)
    (h : matchAfterColon r₁ = some (pid, after)) :
    isDigits pid = true ∧ 9 ≤ pid.length := by
  unfold matchAfterColon at h
  split at h
  · rename_i hds
    have hpid : pid = String.mk ((skipQuote (r₁.dropWhile Rex.ws)).takeWhile Char.isDigit) :=
      (congrArg Prod.fst (Option.some.inj h)).symm
    subst hpid
    refine ⟨?_, ?_⟩
    · simp only [isDigits]
      have hall : ((skipQuote (r₁.dropWhile Rex.ws)).takeWhile Char.isDigit).all
          Char.isDigit = true := by
        rw [List.all_eq_true]
        intro c hc
        exact List.mem_takeWhile_imp hc
      have hne : ((skipQuote (r₁.dropWhile Rex.ws)).takeWhile Char.isDigit).isEmpty
          = false := by
        rw [List.isEmpty_eq_false_iff_exists_mem]
        have : 0 < ((skipQuote (r₁.dropWhile Rex.ws)).takeWhile Char.isDigit).length := by
          omega
        exact List.exists_mem_of_length_pos this
      simp [hne, hall]
    · simpa [String.length] using hds
  · exact Option.noConfusion h

theorem matchScriptId_good (cs : List Char) (pid : String) (after : List Char)
    (h : matchScriptId cs = some (pid, after)) :
    isDigits pid = true ∧ 9 ≤ pid.length := by
  unfold matchScriptId at h
  split at h
  case h_2 => exact Option.noConfusion h
  case h_1 rest =>
    split at h
    · exact Option.noConfusion h
    · rename_i r₁ hr₁
      exact matchAfterColon_good r₁ pid after h

theorem pScan_good (fuel : Nat) :
    ∀ (cs : List Char) (pid : String), pid ∈ pScan fuel cs →
      isDigits pid = true ∧ 9 ≤ pid.length := by
  induction fuel with
  | zero => intro cs pid hp; simp [pScan] at hp
  | succ n ih =>
      intro cs pid hp
      cases cs with
      | nil => simp [pScan] at hp
      | cons c rest =>
          simp only [pScan] at hp
          cases hm : matchSlashP (c :: rest) with
          | none =>
              rw [hm] at hp
              exact ih rest pid hp
          | some pr =>
              rw [hm] at hp
              obtain ⟨pid₂, after⟩ := pr
              rcases List.mem_cons.mp hp with rfl | hp₂
              · exact matchSlashP_good (c :: rest) pid after hm
              · exact ih after pid hp₂

theorem sScan_good (fuel : Nat) :
    ∀ (cs : List Char) (pid : String), pid ∈ sScan fuel cs →
      isDigits pid = true ∧ 9 ≤ pid.length := by
  induction fuel with
  | zero => intro cs pid hp; simp [sScan] at hp
  | succ n ih =>
      intro cs pid hp
      cases cs with
      | nil => simp [sScan] at hp
      | cons c rest =>
          simp only [sScan] at hp
          cases hm : matchScriptId (c :: rest) with
          | none =>
              rw [hm] at hp
              exact ih rest pid hp
          | some pr =>
              rw [hm] at hp
              obtain ⟨pid₂, after⟩ := pr
              rcases List.mem_cons.mp hp with rfl | hp₂
              · exact matchScriptId_good (c :: rest) pid after hm
              · exact ih after pid hp₂

end ExtractIds

namespace ExtractIds

open PyStr

/-- The acceptance format of the attribute and JSON-LD passes. -/
def good8 (p : String) : Prop := isDigits p = true ∧ 8 ≤ p.length

/-- The acceptance format of the two regex passes. -/
def good9 (p : String) : Prop := isDigits p = true ∧ 9 ≤ p.length

theorem foldl_mem_over {β : Type} (f : List String → β → List String) (GOOD : String → Prop) :
    ∀ (l : List β), (∀ a x, x ∈ l → ∀ p, p ∈ f a x → p ∈ a ∨ GOOD p) →
      ∀ (a : List String) (p : String), p ∈ l.foldl f a → p ∈ a ∨ GOOD p := by
  intro l
  induction l with
  | nil => intro _ a p hp; exact Or.inl hp
  | cons x t ih =>
      intro hf a p hp
      rcases ih (fun a y hy p hp => hf a y (List.mem_cons_of_mem x hy) p hp)
          (f a x) p hp with h | h
      · exact hf a x (List.mem_cons_self x t) p h
      · exact Or.inr h

theorem last_conj_not_mem (a : List String) (pid : String) (b : Bool)
    (h : (b && !a.contains pid) = true) : pid ∉ a := by
  rw [Bool.and_eq_true] at h
  simpa using h.2

theorem bare_not_mem (a : List String) (pid : String)
    (h : (!a.contains pid) = true) : pid ∉ a := by
  simpa using h

theorem method1_keeps (attrs acc : List String) :
    (∃ r, method1 acc attrs = acc ++ r) ∧ (acc.Nodup → (method1 acc attrs).Nodup) :=
  foldl_keeps _
    (fun a x => (guarded_append_keeps a x _ (last_conj_not_mem a x _)).1)
    (fun a x => (guarded_append_keeps a x _ (last_conj_not_mem a x _)).2)
    attrs acc

theorem method3_keeps (fields acc : List String) :
    (∃ r, method3 acc fields = acc ++ r) ∧ (acc.Nodup → (method3 acc fields).Nodup) :=
  foldl_keeps _
    (fun a x => (guarded_append_keeps a x _ (last_conj_not_mem a x _)).1)
    (fun a x => (guarded_append_keeps a x _ (last_conj_not_mem a x _)).2)
    fields acc

theorem inner_keeps (pids acc : List String) :
    (∃ r, pids.foldl
        (fun acc pid => if !acc.contains pid then acc ++ [pid] else acc) acc = acc ++ r)
      ∧ (acc.Nodup → (pids.foldl
        (fun acc pid => if !acc.contains pid then acc ++ [pid] else acc) acc).Nodup) :=
  foldl_keeps _
    (fun a x => (guarded_append_keeps a x _ (bare_not_mem a x)).1)
    (fun a x => (guarded_append_keeps a x _ (bare_not_mem a x)).2)
    pids acc

theorem method2_keeps (hrefs acc : List String) :
    (∃ r, method2 acc hrefs = acc ++ r) ∧ (acc.Nodup → (method2 acc hrefs).Nodup) := by
  refine foldl_keeps _ (fun a href => ?_) (fun a href => ?_) hrefs acc
  · by_cases hin : strIn "/p/" href = true
    · rw [if_pos hin]
      exact (inner_keeps (pMatches href) a).1
    · rw [if_neg hin]
      exact ⟨[], by simp⟩
  · by_cases hin : strIn "/p/" href = true
    · rw [if_pos hin]
      exact (inner_keeps (pMatches href) a).2
    · rw [if_neg hin]
      exact fun h => h

theorem method4_keeps (scripts acc : List String) :
    (∃ r, method4 acc scripts = acc ++ r) ∧ (acc.Nodup → (method4 acc scripts).Nodup) := by
  refine foldl_keeps _ (fun a txt => ?_) (fun a txt => ?_) scripts acc
  · by_cases hne : txt ≠ ""
    · rw [if_pos (by simpa using hne)]
      exact (inner_keeps (sMatches txt) a).1
    · rw [if_neg (by simpa using hne)]
      exact ⟨[], by simp⟩
  · by_cases hne : txt ≠ ""
    · rw [if_pos (by simpa using hne)]
      exact (inner_keeps (sMatches txt) a).2
    · rw [if_neg (by simpa using hne)]
      exact fun h => h

theorem method1_mem (attrs acc : List String) (p : String)
    (hp : p ∈ method1 acc attrs) : p ∈ acc ∨ good8 p := by
  refine foldl_mem _ good8 (fun a x p hp => ?_) attrs acc p hp
  by_cases hb : (x ≠ "" && isDigits x && decide (8 ≤ x.length) && !a.contains x) = true
  · rw [if_pos hb] at hp
    rcases List.mem_append.mp hp with h | h
    · exact Or.inl h
    · rcases List.mem_singleton.mp h with rfl
      have hb₁ : isDigits p = true ∧ 8 ≤ p.length := by
        simp only [Bool.and_eq_true, decide_eq_true_eq] at hb
        exact ⟨hb.1.1.2, hb.1.2⟩
      exact Or.inr hb₁
  · rw [if_neg hb] at hp
    exact Or.inl hp

theorem method3_mem (fields acc : List String) (p : String)
    (hp : p ∈ method3 acc fields) : p ∈ acc ∨ good8 p := by
  refine foldl_mem _ good8 (fun a x p hp => ?_) fields acc p hp
  by_cases hb : (isDigits x && decide (8 ≤ x.length) && !a.contains x) = true
  · rw [if_pos hb] at hp
    rcases List.mem_append.mp hp with h | h
    · exact Or.inl h
    · rcases List.mem_singleton.mp h with rfl
      have hb₁ : isDigits p = true ∧ 8 ≤ p.length := by
        simp only [Bool.and_eq_true, decide_eq_true_eq] at hb
        exact ⟨hb.1.1, hb.1.2⟩
      exact Or.inr hb₁
  · rw [if_neg hb] at hp
    exact Or.inl hp

theorem inner_mem_good9 (pids acc : List String) (p : String)
    (hgood : ∀ x ∈ pids, good9 x)
    (hp : p ∈ pids.foldl
      (fun acc pid => if !acc.contains pid then acc ++ [pid] else acc) acc) :
    p ∈ acc ∨ good9 p := by
  refine foldl_mem_over _ good9 pids (fun a x hx p hp => ?_) acc p hp
  by_cases hb : (!a.contains x) = true
  · rw [if_pos hb] at hp
    rcases List.mem_append.mp hp with h | h
    · exact Or.inl h
    · rcases List.mem_singleton.mp h with rfl
      exact Or.inr (hgood _ hx)
  · rw [if_neg hb] at hp
    exact Or.inl hp

theorem method2_mem (hrefs acc : List String) (p : String)
    (hp : p ∈ method2 acc hrefs) : p ∈ acc ∨ good9 p := by
  refine foldl_mem _ good9 (fun a href p hp => ?_) hrefs acc p hp
  by_cases hin : strIn "/p/" href = true
  · rw [if_pos hin] at hp
    exact inner_mem_good9 (pMatches href) a p
      (fun x hx => pScan_good href.data.length href.data x hx) hp
  · rw [if_neg hin] at hp
    exact Or.inl hp

theorem method4_mem (scripts acc : List String) (p : String)
    (hp : p ∈ method4 acc scripts) : p ∈ acc ∨ good9 p := by
  refine foldl_mem _ good9 (fun a txt p hp => ?_) scripts acc p hp
  by_cases hne : txt ≠ ""
  · rw [if_pos (by simpa using hne)] at hp
    exact inner_mem_good9 (sMatches txt) a p
      (fun x hx => sScan_good txt.data.length txt.data x hx) hp
  · rw [if_neg (by simpa using hne)] at hp
    exact Or.inl hp

end ExtractIds

/-- Claim C5, counterexample: on a page carrying one valid id in a
`data-product-id` attribute and a different valid id in a JSON-LD block, the
extractor returns both ids — the attribute pass runs first and the
structured-data pass still contributes — whereas the claim (structured data
is strategy 1 and the first non-empty strategy's result is returned alone)
predicts `["87654321"]`. -/
theorem C5_counterexample_accumulation :
    ExtractIds.extract_product_ids ⟨["12345678"], [], ["87654321"], []⟩
        = ["12345678", "87654321"]
      ∧ ["12345678", "87654321"] ≠ ["87654321"] := by
  constructor
  · decide
  · decide

/-- Claim C5 as amended: the four passes run in the order (1) DOM
`data-product-id` attributes, (2) anchor-href product-URL patterns, (3)
JSON-LD structured data, (4) embedded-script regex, all over one shared
accumulator that each pass only extends (first-occurrence order, no
duplicates) — a later pass contributes every new id it finds even when an
earlier pass already produced results. -/
theorem C5_strategies_accumulate (page : ExtractIds.Page) :
    (ExtractIds.extract_product_ids page).Nodup
      ∧ (∃ r, ExtractIds.extract_product_ids page
          = ExtractIds.method1 [] page.dataProductIdAttrs ++ r)
      ∧ (∀ acc, ∃ r, ExtractIds.method2 acc page.anchorHrefs = acc ++ r)
      ∧ (∀ acc, ∃ r, ExtractIds.method3 acc page.jsonLdFields = acc ++ r)
      ∧ (∀ acc, ∃ r, ExtractIds.method4 acc page.scriptTexts = acc ++ r) := by
  refine ⟨?_, ?_, ?_, ?_, ?_⟩
  · exact (ExtractIds.method4_keeps _ _).2
      ((ExtractIds.method3_keeps _ _).2
        ((ExtractIds.method2_keeps _ _).2
          ((ExtractIds.method1_keeps _ _).2 List.nodup_nil)))
  · obtain ⟨r₂, h₂⟩ := (ExtractIds.method2_keeps page.anchorHrefs
      (ExtractIds.method1 [] page.dataProductIdAttrs)).1
    obtain ⟨r₃, h₃⟩ := (ExtractIds.method3_keeps page.jsonLdFields _).1
    obtain ⟨r₄, h₄⟩ := (ExtractIds.method4_keeps page.scriptTexts _).1
    refine ⟨r₂ ++ r₃ ++ r₄, ?_⟩
    rw [ExtractIds.extract_product_ids, h₄, h₃, h₂]
    simp [List.append_assoc]
  · exact fun acc => (ExtractIds.method2_keeps page.anchorHrefs acc).1
  · exact fun acc => (ExtractIds.method3_keeps page.jsonLdFields acc).1
  · exact fun acc => (ExtractIds.method4_keeps page.scriptTexts acc).1

/-- Claim C6, counterexample: the 8-digit purely numeric candidate
"12345678", reachable only through an anchor href of the product-URL shape,
is discarded: the href regex demands at least 9 digits, so the claim's
"at least 8 digits suffices under every strategy" fails. -/
theorem C6_counterexample_eight_digit_href :
    ExtractIds.extract_product_ids ⟨[], ["/p/widget/12345678"], [], []⟩ = []
      ∧ PyStr.isDigits "12345678" = true
      ∧ "12345678".length = 8 := by
  refine ⟨by decide, by decide, by decide⟩

/-- Claim C6 as amended: every extracted id is purely numeric and at least
8 characters long; the attribute and JSON-LD passes accept exactly the
purely-numeric ≥ 8-digit candidates, but the href and script-regex passes
require at least 9 digits, so on a page whose attribute and JSON-LD passes
yield nothing every extracted id has at least 9 digits. -/
theorem C6_acceptance_thresholds (page : ExtractIds.Page) (pid : String)
    (hp : pid ∈ ExtractIds.extract_product_ids page) :
    (PyStr.isDigits pid = true ∧ 8 ≤ pid.length)
      ∧ (page.dataProductIdAttrs = [] → page.jsonLdFields = [] →
          9 ≤ pid.length) := by
  constructor
  · rcases ExtractIds.method4_mem _ _ _ hp with h4 | h4
    · rcases ExtractIds.method3_mem _ _ _ h4 with h3 | h3
      · rcases ExtractIds.method2_mem _ _ _ h3 with h2 | h2
        · rcases ExtractIds.method1_mem _ _ _ h2 with h1 | h1
          · simp at h1
          · exact h1
        · exact ⟨h2.1, by have := h2.2; omega⟩
      · exact h3
    · exact ⟨h4.1, by have := h4.2; omega⟩
  · intro ha hj
    rw [ExtractIds.extract_product_ids, ha, hj] at hp
    have h1 : ExtractIds.method1 [] [] = [] := rfl
    rw [h1] at hp
    have h3 : ∀ acc, ExtractIds.method3 acc [] = acc := fun _ => rfl
    rw [h3] at hp
    rcases ExtractIds.method4_mem _ _ _ hp with h4 | h4
    · rcases ExtractIds.method2_mem _ _ _ h4 with h2 | h2
      · simp at h2
      · exact h2.2
    · exact h4.2

/-- Witness for C6_acceptance_thresholds at a concrete page. -/
theorem C6_acceptance_thresholds_witness :
    "123456789" ∈ ExtractIds.extract_product_ids ⟨[], ["/p/w/123456789"], [], []⟩
      ∧ (PyStr.isDigits "123456789" = true ∧ 8 ≤ "123456789".length)
      ∧ (([] : List String) = [] → ([] : List String) = [] → 9 ≤ "123456789".length) :=
  ⟨by decide,
   C6_acceptance_thresholds ⟨[], ["/p/w/123456789"], [], []⟩ "123456789" (by decide)⟩

/-!
## `scripts/categorize_scraped_products.py` — gallery image extraction (C9)

`extract_images_from_html` (lines 53-71) finds every
`productImages/<uuid>/svn/<suffix>.<ext>` occurrence in the page text,
deduplicates by the uuid path segment with a first-wins seen-set, rebuilds
the canonical URL and rewrites a trailing `_<digits>.<ext>` into `_1000.jpg`.
The same matcher, deduplication and rewrite appear in
`scripts/extract_gallery_from_scrapes.py` lines 47-69 keyed as a dict.
-/

namespace Gallery

open PyStr

/-- `[a-f0-9-]`. -/
def isUuidChar (c : Char) : Bool :=
  ('a' ≤ c && c ≤ 'f') || c.isDigit || c = '-'

/-- `[^"\'<>\s]`. -/
def isSuffChar (c : Char) : Bool :=
  !(c = '"' || c = '\'' || c = '<' || c = '>' || Rex.ws c)

/-- The extension alternation `(jpg|avif|webp|png)`, tried at the head of the
input in source order. -/
def extAt (cs : List Char) : Option (List Char) :=
  if "jpg".data.isPrefixOf cs then some "jpg".data
  else if "avif".data.isPrefixOf cs then some "avif".data
  else if "webp".data.isPrefixOf cs then some "webp".data
  else if "png".data.isPrefixOf cs then some "png".data
  else none

/-- Does the greedy suffix class give back down to position `c` so that a
literal dot and an extension can match there? -/
def dotExtOK (run : List Char) (c : Nat) : Bool :=
  match run.drop c with
  | '.' :: rest => (extAt rest).isSome
  | _ => false

/-- Largest class length `c ≥ 1` at which `\.(jpg|avif|webp|png)` matches —
the backtracking of the greedy `[^"\'<>\s]+`. -/
def findDotExt (run : List Char) : Nat → Option Nat
  | 0 => none
  | c + 1 => if dotExtOK run (c + 1) then some (c + 1) else findDotExt run c

/-- One attempted match of
`productImages/([a-f0-9-]+)/svn/([^"\'<>\s]+\.(jpg|avif|webp|png))` at the
head of the input: returns the two captured groups (uuid and path suffix) and
the input remaining after the match. -/
def thdMatchAt (cs : List Char) : Option ((List Char × List Char) × List Char) :=
  if "productImages/".data.isPrefixOf cs then
    if ((cs.drop 14).takeWhile isUuidChar).isEmpty then none
    else if "/svn/".data.isPrefixOf ((cs.drop 14).dropWhile isUuidChar) then
      match findDotExt
          ((((cs.drop 14).dropWhile isUuidChar).drop 5).takeWhile isSuffChar)
          (((((cs.drop 14).dropWhile isUuidChar).drop 5).takeWhile isSuffChar).length - 1) with
      | none => none
      | some c =>
          match extAt (((((cs.drop 14).dropWhile isUuidChar).drop 5).takeWhile isSuffChar).drop (c + 1)) with
          | none => none
          | some e =>
              some (((cs.drop 14).takeWhile isUuidChar,
                  ((((cs.drop 14).dropWhile isUuidChar).drop 5).takeWhile isSuffChar).take (c + 1 + e.length)),
                (((cs.drop 14).dropWhile isUuidChar).drop 5).drop (c + 1 + e.length))
    else none
  else none

/-- `re.findall` for the product-image pattern: scan, resume after each
match. -/
def thdScan : Nat → List Char → List (List Char × List Char)
  | 0, _ => []
  | _ + 1, [] => []
  | fuel + 1, c :: rest =>
      match thdMatchAt (c :: rest) with
      | some (pr, after) => pr :: thdScan fuel after
      | none => thdScan fuel rest

def thdMatches (html : String) : List (List Char × List Char) :=
  thdScan html.data.length html.data

/-- `f"https://images.thdstatic.com/productImages/{uuid}/svn/{path_suffix}"`. -/
def buildUrl (uuid suffix : List Char) : List Char :=
  "https://images.thdstatic.com/productImages/".data ++ uuid ++ "/svn/".data ++ suffix

/-- The extension alternation matched on the reversed string. -/
def extAtRev (r : List Char) : Option (List Char) :=
  if "gpj".data.isPrefixOf r then some (r.drop 3)
  else if "fiva".data.isPrefixOf r then some (r.drop 4)
  else if "pbew".data.isPrefixOf r then some (r.drop 4)
  else if "gnp".data.isPrefixOf r then some (r.drop 3)
  else none

/-- Anchored tail parse of `_\d+\.(jpg|avif|webp|png)$` on the reversed URL:
on success, the reversed remainder in front of the `_`. -/
def sizedSplitRev (r : List Char) : Option (List Char) :=
  match extAtRev r with
  | none => none
  | some r₁ =>
      match r₁ with
      | '.' :: r₂ =>
          if (r₂.takeWhile Char.isDigit).isEmpty then none
          else
            match r₂.dropWhile Char.isDigit with
            | '_' :: r₃ => some r₃
            | _ => none
      | _ => none

/-- `re.sub(r'_\d+\.(jpg|avif|webp|png)$', '_1000.jpg', url)`. -/
def normSub (url : List Char) : List Char :=
  match sizedSplitRev url.reverse with
  | some rem => rem.reverse ++ "_1000.jpg".data
  | none => url

/-- The dedup-and-normalize loop (categorize_scraped_products.py lines
61-68): a first-wins seen-set of uuids, and the list of normalized URLs. -/
def galleryStep (st : List (List Char) × List (List Char))
    (m : List Char × List Char) : List (List Char) × List (List Char) :=
  if st.1.contains m.1 then st
  else (st.1 ++ [m.1], st.2 ++ [normSub (buildUrl m.1 m.2)])

/-- `extract_images_from_html`: all matches, deduplicated by uuid, rebuilt
and normalized. -/
def extract_images_from_html (html : String) : List String :=
  ((thdMatches html).foldl galleryStep ([], [])).2.map String.mk

/-- The uuid path segment of a built URL: what follows the literal prefix
`https://images.thdstatic.com/productImages/`, up to the next slash. -/
def uuidOf (url : List Char) : List Char :=
  (url.drop "https://images.thdstatic.com/productImages/".data.length).takeWhile
    (fun c => c ≠ '/')

/-- A path suffix of the sized shape `<stem>_<digits>.<ext>`. -/
def SizedSuffix (s : List Char) : Prop :=
  ∃ w d e, s = w ++ '_' :: (d ++ '.' :: e) ∧ d ≠ [] ∧ (∀ c ∈ d, c.isDigit = true)
    ∧ (e = "jpg".data ∨ e = "avif".data ∨ e = "webp".data ∨ e = "png".data)

end Gallery

namespace Gallery

open PyStr

theorem takeWhile_stops (p : Char → Bool) (a : List Char) (b : Char) (t : List Char)
    (ha : ∀ c ∈ a, p c = true) (hb : p b = false) :
    (a ++ b :: t).takeWhile p = a := by
  induction a with
  | nil => simp [List.takeWhile, hb]
  | cons c a' ih =>
      have hc : p c = true := ha c (List.mem_cons_self c a')
      simp only [List.cons_append, List.takeWhile_cons, hc, if_true]
      rw [ih (fun x hx => ha x (List.mem_cons_of_mem c hx))]

theorem leads_decomp (l : List Char) :
    ∀ m : List Char, l.isPrefixOf m = true → m = l ++ m.drop l.length := by
  induction l with
  | nil => intro m _; simp
  | cons a l' ih =>
      intro m h
      cases m with
      | nil => simp [List.isPrefixOf] at h
      | cons b m' =>
          have h' : (a == b) = true ∧ l'.isPrefixOf m' = true := by
            rw [← Bool.and_eq_true]
            simpa [List.isPrefixOf] using h
          have hb : a = b := by simpa using h'.1
          subst hb
          simpa using ih m' h'.2

theorem uuidChar_ne_slash (c : Char) (h : isUuidChar c = true) : c ≠ '/' := by
  intro hc
  rw [hc] at h
  exact absurd h (by decide)

theorem digit_ne_slash (c : Char) (h : c.isDigit = true) : c ≠ '/' := by
  intro hc
  rw [hc] at h
  exact absurd h (by decide)

theorem thdMatchAt_shape (cs : List Char) (u s after : List Char)
    (h : thdMatchAt cs = some ((u, s), after)) :
    u ≠ [] ∧ (∀ c ∈ u, isUuidChar c = true) := by
  unfold thdMatchAt at h
  split at h
  · split at h
    · exact Option.noConfusion h
    · rename_i hne
      split at h
      · split at h
        · exact Option.noConfusion h
        · split at h
          · exact Option.noConfusion h
          · have hu : (cs.drop 14).takeWhile isUuidChar = u := by
              have := Option.some.inj h
              exact congrArg (fun pr => pr.1.1) this
            constructor
            · rw [← hu]
              intro he
              rw [he] at hne
              simp at hne
            · intro c hc
              rw [← hu] at hc
              exact List.mem_takeWhile_imp hc
      · exact Option.noConfusion h
  · exact Option.noConfusion h

theorem thdScan_shape (fuel : Nat) :
    ∀ (cs : List Char) (pr : List Char × List Char), pr ∈ thdScan fuel cs →
      pr.1 ≠ [] ∧ (∀ c ∈ pr.1, isUuidChar c = true) := by
  induction fuel with
  | zero => intro cs pr hp; simp [thdScan] at hp
  | succ n ih =>
      intro cs pr hp
      cases cs with
      | nil => simp [thdScan] at hp
      | cons c rest =>
          simp only [thdScan] at hp
          cases hm : thdMatchAt (c :: rest) with
          | none =>
              rw [hm] at hp
              exact ih rest pr hp
          | some mr =>
              rw [hm] at hp
              obtain ⟨⟨u, s⟩, after⟩ := mr
              rcases List.mem_cons.mp hp with rfl | hp₂
              · exact thdMatchAt_shape (c :: rest) u s after hm
              · exact ih after pr hp₂

theorem extAtRev_shape (r r₁ : List Char) (h : extAtRev r = some r₁) :
    ∃ X, r = X ++ r₁ ∧ (∀ c ∈ X, c ≠ '/') := by
  unfold extAtRev at h
  split_ifs at h with h1 h2 h3 h4
  · refine ⟨"gpj".data, ?_, by decide⟩
    have hd : r = "gpj".data ++ r.drop 3 := by
      have hl : ("gpj".data).length = 3 := rfl
      have := leads_decomp "gpj".data r h1
      rwa [hl] at this
    rw [← Option.some.inj h]
    exact hd
  · refine ⟨"fiva".data, ?_, by decide⟩
    have hd : r = "fiva".data ++ r.drop 4 := by
      have hl : ("fiva".data).length = 4 := rfl
      have := leads_decomp "fiva".data r h2
      rwa [hl] at this
    rw [← Option.some.inj h]
    exact hd
  · refine ⟨"pbew".data, ?_, by decide⟩
    have hd : r = "pbew".data ++ r.drop 4 := by
      have hl : ("pbew".data).length = 4 := rfl
      have := leads_decomp "pbew".data r h3
      rwa [hl] at this
    rw [← Option.some.inj h]
    exact hd
  · refine ⟨"gnp".data, ?_, by decide⟩
    have hd : r = "gnp".data ++ r.drop 3 := by
      have hl : ("gnp".data).length = 3 := rfl
      have := leads_decomp "gnp".data r h4
      rwa [hl] at this
    rw [← Option.some.inj h]
    exact hd

theorem sizedSplitRev_shape (r rem : List Char) (h : sizedSplitRev r = some rem) :
    ∃ X d, r = X ++ '.' :: (d ++ '_' :: rem)
      ∧ (∀ c ∈ X, c ≠ '/') ∧ d ≠ [] ∧ (∀ c ∈ d, c.isDigit = true) := by
  unfold sizedSplitRev at h
  split at h
  · exact Option.noConfusion h
  · rename_i r₁ hext
    split at h
    · rename_i r₂
      split at h
      · exact Option.noConfusion h
      · rename_i hdne
        split at h
        · rename_i r₃ hdw
          obtain rfl : r₃ = rem := Option.some.inj h
          obtain ⟨X, hX, hXc⟩ := extAtRev_shape r ('.' :: r₂) hext
          refine ⟨X, r₂.takeWhile Char.isDigit, ?_, hXc, ?_, ?_⟩
          · rw [hX]
            congr 2
            conv_lhs => rw [← List.takeWhile_append_dropWhile (p := Char.isDigit) (l := r₂)]
            rw [hdw]
          · intro he
            rw [he] at hdne
            simp at hdne
          · intro c hc
            exact List.mem_takeWhile_imp hc
        · exact Option.noConfusion h
    · exact Option.noConfusion h

end Gallery

namespace Gallery

open PyStr

theorem svn_slash_eq : ("/svn/".data : List Char) = "/svn".data ++ ['/'] := by decide

theorem svn_cons_eq : ("/svn".data : List Char) = '/' :: "svn".data := by decide

theorem svn_full_cons : ("/svn/".data : List Char) = '/' :: ("svn/".data) := by decide

theorem takeWhile_uuid (u : List Char) (hcu : ∀ c ∈ u, isUuidChar c = true)
    (rest : List Char) :
    (u ++ '/' :: rest).takeWhile (fun c => decide (c ≠ '/')) = u :=
  takeWhile_stops _ u '/' rest
    (fun c hc => by simp [uuidChar_ne_slash c (hcu c hc)])
    (by decide)

theorem slash_in_drop (A sfx : List Char) (n : Nat) (hn : n ≤ A.length) :
    '/' ∈ (A ++ '/' :: sfx).drop n := by
  rw [List.drop_append_eq_append_drop, Nat.sub_eq_zero_of_le hn, List.drop_zero]
  exact List.mem_append.mpr (Or.inr (List.mem_cons_self _ _))

theorem uuidOf_of_slash (u rest : List Char) (hcu : ∀ c ∈ u, isUuidChar c = true) :
    uuidOf ("https://images.thdstatic.com/productImages/".data ++ (u ++ '/' :: rest))
      = u := by
  unfold uuidOf
  rw [List.drop_left]
  exact takeWhile_uuid u hcu rest

theorem uuidOf_norm (u s : List Char) (hcu : ∀ c ∈ u, isUuidChar c = true) :
    uuidOf (normSub (buildUrl u s)) = u := by
  cases hsp : sizedSplitRev (buildUrl u s).reverse with
  | none =>
      have hns : normSub (buildUrl u s) = buildUrl u s := by
        unfold normSub
        rw [hsp]
      rw [hns]
      have hb : buildUrl u s
          = "https://images.thdstatic.com/productImages/".data
            ++ (u ++ ('/' :: ("svn/".data ++ s))) := by
        unfold buildUrl
        rw [svn_full_cons]
        simp [List.append_assoc]
      rw [hb]
      exact uuidOf_of_slash u _ hcu
  | some rem =>
      have hns : normSub (buildUrl u s) = rem.reverse ++ "_1000.jpg".data := by
        unfold normSub
        rw [hsp]
      rw [hns]
      obtain ⟨X, d, hr, hXc, hdne, hdig⟩ := sizedSplitRev_shape _ rem hsp
      have hurl : buildUrl u s
          = rem.reverse ++ ('_' :: (d.reverse ++ '.' :: X.reverse)) := by
        have h₀ := congrArg List.reverse hr
        rw [List.reverse_reverse] at h₀
        rw [h₀]
        simp [List.reverse_append, List.append_assoc]
      have hT : ∀ c ∈ ('_' :: (d.reverse ++ '.' :: X.reverse)), c ≠ '/' := by
        intro c hc
        rcases List.mem_cons.mp hc with rfl | hc₂
        · decide
        rcases List.mem_append.mp hc₂ with hc₃ | hc₃
        · exact digit_ne_slash c (hdig c (List.mem_reverse.mp hc₃))
        rcases List.mem_cons.mp hc₃ with rfl | hc₄
        · decide
        · exact hXc c (List.mem_reverse.mp hc₄)
      have hA : buildUrl u s
          = ("https://images.thdstatic.com/productImages/".data ++ u ++ "/svn".data
              ++ ['/']) ++ s := by
        unfold buildUrl
        rw [svn_slash_eq]
        simp [List.append_assoc]
      by_cases hlen :
          ("https://images.thdstatic.com/productImages/".data ++ u ++ "/svn".data
              ++ ['/']).length ≤ rem.reverse.length
      · -- the rewritten tail lies inside the path suffix: the prefix survives
        have h₁ : rem.reverse = (buildUrl u s).take rem.reverse.length := by
          rw [hurl, List.take_left]
        rw [hA, List.take_append_eq_append_take, List.take_of_length_le hlen] at h₁
        have hEx : ∃ C, rem.reverse
            = ("https://images.thdstatic.com/productImages/".data ++ u ++ "/svn".data
                ++ ['/']) ++ C := ⟨_, h₁⟩
        obtain ⟨C, hC⟩ := hEx
        have key : rem.reverse ++ "_1000.jpg".data
            = "https://images.thdstatic.com/productImages/".data
              ++ (u ++ '/' :: ("svn".data ++ '/' :: (C ++ "_1000.jpg".data))) := by
          rw [hC, svn_cons_eq]
          simp [List.append_assoc]
        rw [key]
        exact uuidOf_of_slash u _ hcu
      · -- impossible: the rewritten tail would cover the slash before the suffix
        exfalso
        push_neg at hlen
        have hext : ("https://images.thdstatic.com/productImages/".data ++ u
            ++ "/svn".data ++ ['/']).length
            = ("https://images.thdstatic.com/productImages/".data ++ u
              ++ "/svn".data).length + 1 := by
          simp
        have hble : rem.reverse.length
            ≤ ("https://images.thdstatic.com/productImages/".data ++ u
                ++ "/svn".data).length := by
          omega
        have hT' : ('_' :: (d.reverse ++ '.' :: X.reverse))
            = (buildUrl u s).drop rem.reverse.length := by
          rw [hurl, List.drop_left]
        have hA3 : buildUrl u s
            = ("https://images.thdstatic.com/productImages/".data ++ u ++ "/svn".data)
                ++ '/' :: s := by
          rw [hA]
          simp [List.append_assoc]
        have hslash : '/' ∈ (buildUrl u s).drop rem.reverse.length := by
          rw [hA3]
          exact slash_in_drop _ _ _ hble
        exact hT '/' (by rw [hT']; exact hslash) rfl

end Gallery
namespace Gallery

open PyStr

theorem dropWhile_stops (p : Char → Bool) (a : List Char) (b : Char) (t : List Char)
    (ha : ∀ c ∈ a, p c = true) (hb : p b = false) :
    (a ++ b :: t).dropWhile p = b :: t := by
  induction a with
  | nil => simp [List.dropWhile, hb]
  | cons c a' ih =>
      have hc : p c = true := ha c (List.mem_cons_self c a')
      simp only [List.cons_append, List.dropWhile_cons, hc, if_true]
      exact ih (fun x hx => ha x (List.mem_cons_of_mem c hx))

theorem sizedSplitRev_of_tail (d e : List Char) (hdne : d ≠ [])
    (hdig : ∀ c ∈ d, c.isDigit = true)
    (he : e = "jpg".data ∨ e = "avif".data ∨ e = "webp".data ∨ e = "png".data) :
    ∀ X : List Char,
      sizedSplitRev (e.reverse ++ '.' :: (d.reverse ++ '_' :: X)) = some X := by
  intro X
  have hpre : extAtRev (e.reverse ++ '.' :: (d.reverse ++ '_' :: X))
      = some ('.' :: (d.reverse ++ '_' :: X)) := by
    rcases he with rfl | rfl | rfl | rfl <;> rfl
  have htw : (d.reverse ++ '_' :: X).takeWhile Char.isDigit = d.reverse :=
    takeWhile_stops _ _ _ _ (fun c hc => hdig c (List.mem_reverse.mp hc)) (by decide)
  have hdw : (d.reverse ++ '_' :: X).dropWhile Char.isDigit = '_' :: X :=
    dropWhile_stops _ _ _ _ (fun c hc => hdig c (List.mem_reverse.mp hc)) (by decide)
  have hne : d.reverse.isEmpty = false := by
    cases hd : d.reverse with
    | nil => exact absurd (by simpa using hd) hdne
    | cons c l => rfl
  simp only [sizedSplitRev, hpre, htw, hdw, hne]
  rfl

theorem sized_normSub (v s : List Char) (hs : SizedSuffix s) :
    ∃ r, normSub (buildUrl v s) = r ++ "_1000.jpg".data := by
  obtain ⟨w, d, e, hse, hdne, hdig, he⟩ := hs
  have hshape : ∃ X₀, (buildUrl v s).reverse
      = e.reverse ++ '.' :: (d.reverse ++ '_' :: X₀) := by
    refine ⟨w.reverse ++ ("https://images.thdstatic.com/productImages/".data ++ v
        ++ "/svn/".data).reverse, ?_⟩
    unfold buildUrl
    rw [hse]
    simp [List.reverse_append, List.append_assoc]
  obtain ⟨X₀, hX⟩ := hshape
  refine ⟨X₀.reverse, ?_⟩
  simp only [normSub]
  rw [hX, sizedSplitRev_of_tail d e hdne hdig he X₀]

theorem countP_eq_one_of_nodup (l : List (List Char)) (u : List Char)
    (hnd : l.Nodup) (hu : u ∈ l) : l.countP (fun x => x == u) = 1 := by
  induction l with
  | nil => simp at hu
  | cons a l' ih =>
      rw [List.countP_cons]
      rcases List.mem_cons.mp hu with rfl | hu₂
      · have hnl : u ∉ l' := (List.nodup_cons.mp hnd).1
        have hz : l'.countP (fun x => x == u) = 0 := by
          refine List.countP_eq_zero.mpr ?_
          intro x hx
          simp only [beq_iff_eq]
          intro hxe
          rw [hxe] at hx
          exact hnl hx
        simp [hz]
      · have hne : ¬ ((a == u) = true) := by
          simp only [beq_iff_eq]
          intro hae
          rw [hae] at hnd
          exact (List.nodup_cons.mp hnd).1 hu₂
        have hr := ih (List.nodup_cons.mp hnd).2 hu₂
        simp [hr, hne]

theorem gallery_fold_inv :
    ∀ ms : List (List Char × List Char),
      (∀ pr ∈ ms, ∀ c ∈ pr.1, isUuidChar c = true) →
      ∀ seen urls : List (List Char),
        urls.map uuidOf = seen → seen.Nodup →
        ((ms.foldl galleryStep (seen, urls)).2.map uuidOf
            = (ms.foldl galleryStep (seen, urls)).1)
          ∧ (ms.foldl galleryStep (seen, urls)).1.Nodup
          ∧ ∀ v, v ∈ (ms.foldl galleryStep (seen, urls)).1
              ↔ v ∈ seen ∨ ∃ s, (v, s) ∈ ms := by
  intro ms
  induction ms with
  | nil =>
      intro _ seen urls hmap hnd
      refine ⟨hmap, hnd, fun v => ?_⟩
      simp
  | cons m ms' ih =>
      intro hms seen urls hmap hnd
      obtain ⟨a, b⟩ := m
      have hms' : ∀ pr ∈ ms', ∀ c ∈ pr.1, isUuidChar c = true :=
        fun pr hp => hms pr (List.mem_cons_of_mem _ hp)
      have ha : ∀ c ∈ a, isUuidChar c = true :=
        hms (a, b) (List.mem_cons_self _ _)
      rw [List.foldl_cons]
      by_cases hc : seen.contains a = true
      · have hmema : a ∈ seen := by simpa using hc
        have hstep : galleryStep (seen, urls) (a, b) = (seen, urls) := by
          simp [galleryStep, hmema]
        rw [hstep]
        obtain ⟨h1, h2, h3⟩ := ih hms' seen urls hmap hnd
        refine ⟨h1, h2, fun v => ?_⟩
        rw [h3 v]
        constructor
        · rintro (hv | ⟨s, hs⟩)
          · exact Or.inl hv
          · exact Or.inr ⟨s, List.mem_cons_of_mem _ hs⟩
        · rintro (hv | ⟨s, hs⟩)
          · exact Or.inl hv
          · rcases List.mem_cons.mp hs with heq | hs₂
            · have hva : v = a := congrArg Prod.fst heq
              rw [hva]
              exact Or.inl hmema
            · exact Or.inr ⟨s, hs₂⟩
      · have hcf : seen.contains a = false := by simpa using hc
        have hnmem : a ∉ seen := by simpa using hcf
        have hstep : galleryStep (seen, urls) (a, b)
            = (seen ++ [a], urls ++ [normSub (buildUrl a b)]) := by
          simp [galleryStep, hnmem]
        rw [hstep]
        have hmap' : (urls ++ [normSub (buildUrl a b)]).map uuidOf = seen ++ [a] := by
          rw [List.map_append, hmap]
          simp [uuidOf_norm a b ha]
        have hnd' : (seen ++ [a]).Nodup := by
          simp [List.nodup_append, hnd, hnmem]
        obtain ⟨h1, h2, h3⟩ := ih hms' (seen ++ [a]) _ hmap' hnd'
        refine ⟨h1, h2, fun v => ?_⟩
        rw [h3 v]
        constructor
        · rintro (hv | ⟨s, hs⟩)
          · rcases List.mem_append.mp hv with hv₁ | hv₂
            · exact Or.inl hv₁
            · have hva : v = a := by simpa using hv₂
              refine Or.inr ⟨b, ?_⟩
              rw [hva]
              exact List.mem_cons_self _ _
          · exact Or.inr ⟨s, List.mem_cons_of_mem _ hs⟩
        · rintro (hv | ⟨s, hs⟩)
          · exact Or.inl (List.mem_append.mpr (Or.inl hv))
          · rcases List.mem_cons.mp hs with heq | hs₂
            · have hva : v = a := congrArg Prod.fst heq
              exact Or.inl (List.mem_append.mpr (Or.inr (by simp [hva])))
            · exact Or.inr ⟨s, hs₂⟩

end Gallery

/-- C9: gallery extraction deduplicates by the UUID path segment — for every
HTML input and every uuid captured by some match of the product-image pattern,
the extracted gallery holds exactly one entry whose URL carries that uuid
segment; and every match whose path suffix is of the sized shape
`stem_digits.ext` is normalized so its rebuilt URL ends in the canonical
`_1000.jpg` size token. -/
theorem C9_gallery_dedup (html : String) (u : List Char)
    (hmem : ∃ s, (u, s) ∈ Gallery.thdMatches html) :
    (Gallery.extract_images_from_html html).countP
        (fun url => Gallery.uuidOf url.data == u) = 1
    ∧ ∀ v s, (v, s) ∈ Gallery.thdMatches html → Gallery.SizedSuffix s →
        ∃ r, Gallery.normSub (Gallery.buildUrl v s) = r ++ "_1000.jpg".data := by
  have hms : ∀ pr ∈ Gallery.thdMatches html, ∀ c ∈ pr.1,
      Gallery.isUuidChar c = true :=
    fun pr hp => (Gallery.thdScan_shape html.data.length html.data pr hp).2
  obtain ⟨h1, h2, h3⟩ :=
    Gallery.gallery_fold_inv (Gallery.thdMatches html) hms [] [] rfl List.nodup_nil
  refine ⟨?_, fun v s hvs hsz => Gallery.sized_normSub v s hsz⟩
  have hu : u ∈ ((Gallery.thdMatches html).foldl Gallery.galleryStep ([], [])).1 :=
    (h3 u).mpr (Or.inr hmem)
  have hone := Gallery.countP_eq_one_of_nodup _ u h2 hu
  show (((Gallery.thdMatches html).foldl Gallery.galleryStep ([], [])).2.map
      String.mk).countP (fun url => Gallery.uuidOf url.data == u) = 1
  rw [List.countP_map]
  have hcomp : ((fun url : String => Gallery.uuidOf url.data == u) ∘ String.mk)
      = ((fun x : List Char => x == u) ∘ Gallery.uuidOf) := rfl
  rw [hcomp, ← List.countP_map, h1]
  exact hone

/-- Concrete instance of C9 on an input holding two sized image URLs sharing
the uuid segment `a`. -/
theorem C9_gallery_dedup_witness :
    (∃ s, (['a'], s) ∈ Gallery.thdMatches
        "productImages/a/svn/p_1.jpg productImages/a/svn/p_2.png")
    ∧ ((Gallery.extract_images_from_html
          "productImages/a/svn/p_1.jpg productImages/a/svn/p_2.png").countP
        (fun url => Gallery.uuidOf url.data == ['a']) = 1
      ∧ ∀ v s, (v, s) ∈ Gallery.thdMatches
            "productImages/a/svn/p_1.jpg productImages/a/svn/p_2.png" →
          Gallery.SizedSuffix s →
          ∃ r, Gallery.normSub (Gallery.buildUrl v s)
            = r ++ "_1000.jpg".data) :=
  ⟨⟨"p_1.jpg".data, by decide⟩,
    C9_gallery_dedup "productImages/a/svn/p_1.jpg productImages/a/svn/p_2.png"
      (['a']) ⟨"p_1.jpg".data, by decide⟩⟩


/-!
## `scripts/cleanup_categories.py` — the full cleanup run (C1, C4)
-/

namespace CleanupRun

open PyStr Rex Cleanup

/-- A category JSON file as the cleanup run reads it: its `products` array
and `pageInfo.totalResults`. -/
structure CFile where
  products : List CProduct
  totalResults : Nat
  deriving DecidableEq, Repr

/-- The loaded `category_files`: an insertion-ordered map from relative path
to file data (files with a `products` list; `index.json` is skipped before
loading). -/
abbrev Store := List (String × CFile)

/-- Python `str.replace(pat, rep)`: replace every non-overlapping occurrence,
scanning left to right. -/
def replaceAll (pat rep : List Char) : Nat → List Char → List Char
  | 0, s => s
  | fuel + 1, s =>
      if pat.isPrefixOf s then rep ++ replaceAll pat rep fuel (s.drop pat.length)
      else
        match s with
        | [] => []
        | c :: rest => c :: replaceAll pat rep fuel rest

def pyreplace (s pat rep : String) : String :=
  String.mk (replaceAll pat.data rep.data s.data.length s.data)

/-- `get_category_from_path` (lines 380-383): `file_path.split("/")[0]` — the
prefix before the first slash — with `.json` stripped. -/
def get_category_from_path (file_path : String) : String :=
  pyreplace (String.mk (file_path.data.takeWhile (fun c => c != '/'))) ".json" ""

/-- `CATEGORY_RULES[cat]["valid_subcategories"]` for every category key
(cleanup_categories.py lines 31-206). -/
def CATEGORY_RULES_valid : List (String × List String) :=
  [("appliances",
    ["Refrigerators", "French Door", "Side By Side", "Top Freezer",
     "Bottom Freezer", "Mini Fridges", "Freezerless", "Freezers",
     "Washers Dryers", "Dishwashers", "Microwaves",
     "Ranges", "Wall Ovens", "Cooktops", "Range Hoods",
     "Garbage Disposals", "Ice Makers", "Beverage Coolers",
     "Air Conditioners", "Floor Care", "Fans", "Counter Depth"]),
   ("tools",
    ["Power Tools", "Hand Tools", "Power Drills", "Saws",
     "Table Saws", "Miter Saws", "Circular Saws", "Jigsaws",
     "Sanders", "Grinders", "Routers", "Nailers",
     "Impact Drivers", "Impact Wrenches", "Oscillating Tools",
     "Air Compressors", "Tool Storage", "Welding"]),
   ("home-decor",
    ["Mirrors", "Rugs", "Curtains", "Wall Art", "Artificial Plants",
     "Decorative Accents", "Candles", "Picture Frames"]),
   ("furniture",
    ["Chairs", "Sofas", "Tables", "Desks", "Beds",
     "Dressers", "Bookcases", "Cabinets", "Kitchen Carts"]),
   ("plumbing",
    ["Faucets", "Kitchen Faucets", "Bathroom Faucets",
     "Sinks", "Toilets", "Showers", "Bathtubs",
     "Water Heaters", "Pipes", "Valves"]),
   ("bath", ["Bathroom Vanities", "Shower Doors", "Bath Accessories"]),
   ("lighting",
    ["Ceiling Lights", "Chandeliers", "Pendant Lights",
     "Wall Sconces", "Lamps", "Ceiling Fans", "Outdoor Lighting"]),
   ("garage", []),
   ("storage", []),
   ("outdoors", [])]

/-- `CategoryCleanup._suggest_subcategory` (lines 417-465): the appliances
title-keyword chain; every other category falls through to `None`. -/
def suggest_subcategory (title category : String) : Option String :=
  if category == "appliances" then
    if pysearch (W2 "french" "door") (lower title) then some "French Door"
    else if pysearch (sq [.wb, .lit "side".data, .starCls ws, .lit "by".data,
        .starCls ws, .lit "side".data, .wb]) (lower title) then some "Side By Side"
    else if pysearch (W2 "top" "freezer") (lower title) then some "Top Freezer"
    else if pysearch (W2 "bottom" "freezer") (lower title) then some "Bottom Freezer"
    else if pysearch (anyOf [W2 "mini" "fridge",
        sq [.wb, .lit "compact".data, .wb, .starCls dot, .wb,
          .lit "refrigerator".data, .wb]]) (lower title) then some "Mini Fridges"
    else if pysearch (W "freezerless") (lower title) then some "Freezerless"
    else if pysearch (anyOf [W "refrigerator", W "fridge"]) (lower title) then
      some "Refrigerators"
    else if pysearch (sq [.wb, .lit "freezer".data, .wb,
        .nla (sq [.starCls dot, .lit "refrigerator".data])]) (lower title) then
      some "Freezers"
    else if pysearch (anyOf [W "washer", W "dryer", W "laundry"]) (lower title) then
      some "Washers Dryers"
    else if pysearch (W "dishwasher") (lower title) then some "Dishwashers"
    else if pysearch (W "microwave") (lower title) then some "Microwaves"
    else if pysearch (anyOf [W2 "range" "hood", W2 "vent" "hood"]) (lower title) then
      some "Range Hoods"
    else if pysearch (W2 "wall" "oven") (lower title) then some "Wall Ovens"
    else if pysearch (W "cooktop") (lower title) then some "Cooktops"
    else if pysearch (anyOf [W "range", W "stove"]) (lower title) then some "Ranges"
    else if pysearch (anyOf [W2 "garbage" "disposal", W "disposal"]) (lower title) then
      some "Garbage Disposals"
    else if pysearch (W2 "ice" "maker") (lower title) then some "Ice Makers"
    else if pysearch (anyOf [W2 "beverage" "cooler", W2 "wine" "cooler"]) (lower title) then
      some "Beverage Coolers"
    else if pysearch (W2 "air" "condition") (lower title) then some "Air Conditioners"
    else if pysearch (anyOf [W "vacuum", W2 "floor" "care"]) (lower title) then
      some "Floor Care"
    else if pysearch (W "fan") (lower title) then some "Fans"
    else none
  else none

/-- `[r"\brefrigerator\b", r"\bfridge\b", r"\bfreezer\b"]` (line 400). -/
def refrigValRE : RE := anyOf [W "refrigerator", W "fridge", W "freezer"]

/-- `[r"\brange\b", r"\bstove\b", r"\boven\b", r"\bcooktop\b"]` (line 407). -/
def rangesValRE : RE := anyOf [W "range", W "stove", W "oven", W "cooktop"]

/-- `CategoryCleanup.validate_subcategory` (lines 385-415). -/
def validate_subcategory (category subcategory : String) (product : CProduct) :
    Option String :=
  match alookup category CATEGORY_RULES_valid with
  | none => none
  | some valid_subs =>
      if valid_subs.contains subcategory then
        if category == "appliances" && subcategory == "Refrigerators"
            && !pysearch refrigValRE (lower product.title) then
          suggest_subcategory (lower product.title) category
        else if category == "appliances" && subcategory == "Ranges"
            && !pysearch rangesValRE (lower product.title) then
          suggest_subcategory (lower product.title) category
        else none
      else suggest_subcategory product.title category

/-- One `misplaced_products` report entry (lines 482-490). -/
structure MP where
  productId : String
  title : String
  brand : String
  current_category : String
  current_file : String
  current_subcategory : String
  suggested_category : String
  deriving DecidableEq, Repr

/-- One `subcategory_fixes` report entry (lines 497-503). -/
structure SF where
  productId : String
  title : String
  file : String
  current_subcategory : String
  suggested_subcategory : String
  deriving DecidableEq, Repr

/-- The per-product body of `analyze_misplaced_products` (lines 474-503). -/
def analyzeProduct (fp current_category : String) (p : CProduct)
    (acc : List MP × List SF) : List MP × List SF :=
  match Cleanup.classify_product p current_category with
  | some sc =>
      (acc.1 ++ [⟨p.productId, p.title, p.brand, current_category, fp,
        p.subcategory, sc⟩], acc.2)
  | none =>
      match validate_subcategory current_category p.subcategory p with
      | some s =>
          if s == p.subcategory then acc
          else (acc.1, acc.2 ++ [⟨p.productId, p.title, fp, p.subcategory, s⟩])
      | none => acc

/-- `CategoryCleanup.analyze_misplaced_products` (lines 467-508): both report
lists, accumulated in file order then product order. -/
def analyze (store : Store) : List MP × List SF :=
  store.foldl
    (fun acc e => e.2.products.foldl
      (fun a p => analyzeProduct e.1 (get_category_from_path e.1) p a) acc)
    ([], [])

/-- Python dict assignment `self.all_products[pid] = product`: overwrite in
place when the key exists, append otherwise. -/
def setAP (m : List (String × CProduct)) (k : String) (v : CProduct) :
    List (String × CProduct) :=
  if (m.map Prod.fst).contains k then
    m.map (fun e => if e.1 == k then (k, v) else e)
  else m ++ [(k, v)]

/-- The `all_products` map built by `load_all_categories` (lines 244-252):
every product with a truthy productId, keyed by it, last writer winning. -/
def buildAllP (store : Store) : List (String × CProduct) :=
  store.foldl
    (fun m e => e.2.products.foldl
      (fun m' p => if p.productId == "" then m' else setAP m' p.productId p) m)
    []

/-- `products_to_remove[fp]` (lines 578-584): ids of report entries whose
current file is `fp`. -/
def removeSet (mps : List MP) (fp : String) : List String :=
  (mps.filter (fun mp => mp.current_file == fp)).map (fun mp => mp.productId)

/-- `categories_with_products` (lines 573-575). -/
def catsWithProducts (store : Store) : List String :=
  store.map (fun e => get_category_from_path e.1)

/-- The target file a relocation resolves to (lines 597-604): the top-level
`{category}.json`, or `other.json` when that category has no products file. -/
def resolvedTarget (cats : List String) (tc : String) : String :=
  if cats.contains tc then tc ++ ".json" else "other.json"

/-- Lines 586-606: look up the product in `all_products`, refresh its
subcategory for the target category, and resolve the target file. -/
def relocRecord (allP : List (String × CProduct)) (cats : List String)
    (mp : MP) : Option (String × CProduct) :=
  match alookup mp.productId allP with
  | none => none
  | some prod =>
      match suggest_subcategory prod.title mp.suggested_category with
      | some s =>
          if cats.contains mp.suggested_category then
            some (mp.suggested_category ++ ".json", { prod with subcategory := s })
          else some ("other.json", { prod with subcategory := s })
      | none =>
          if cats.contains mp.suggested_category then
            some (mp.suggested_category ++ ".json", prod)
          else some ("other.json", prod)

/-- `products_to_add[fp]` (lines 578-606), in report order. -/
def addsFor (mps : List MP) (allP : List (String × CProduct))
    (cats : List String) (fp : String) : List CProduct :=
  mps.filterMap (fun mp =>
    match relocRecord allP cats mp with
    | some pr => if pr.1 == fp then some pr.2 else none
    | none => none)

/-- `subcategory_updates[fp][pid]` (lines 609-614): a dict write per fix
entry, so the last entry for a (file, id) pair wins. -/
def subFixFor (sfs : List SF) (fp pid : String) : Option String :=
  (sfs.filter (fun sf => sf.file == fp && sf.productId == pid)).foldl
    (fun _ sf => some sf.suggested_subcategory) none

/-- The per-file product-array rewrite of `apply_fixes` (lines 617-645):
remove the relocated-away ids, extend with the relocated-in records, then
apply the subcategory fixes to every product now in the file. -/
def applyProducts (mps : List MP) (sfs : List SF)
    (allP : List (String × CProduct)) (cats : List String)
    (fp : String) (f : CFile) : List CProduct :=
  ((f.products.filter (fun p => !(removeSet mps fp).contains p.productId))
      ++ addsFor mps allP cats fp).map
    (fun p =>
      match subFixFor sfs fp p.productId with
      | some s => { p with subcategory := s }
      | none => p)

/-- The `modified` flag of the per-file loop (lines 618-644): a removal that
changed the count, any relocated-in record, or any product hit by a
subcategory fix. -/
def fileModified (mps : List MP) (sfs : List SF)
    (allP : List (String × CProduct)) (cats : List String)
    (fp : String) (f : CFile) : Bool :=
  ((f.products.filter
      (fun p => !(removeSet mps fp).contains p.productId)).length
    != f.products.length)
  || !(addsFor mps allP cats fp).isEmpty
  || (f.products.filter (fun p => !(removeSet mps fp).contains p.productId)
      ++ addsFor mps allP cats fp).any
    (fun p => (subFixFor sfs fp p.productId).isSome)

/-- One file's contents after `apply_fixes`: rewritten products with a
refreshed `pageInfo.totalResults` when the modified flag is set, untouched
otherwise (lines 637-656). -/
def applyFile (mps : List MP) (sfs : List SF) (allP : List (String × CProduct))
    (cats : List String) (fp : String) (f : CFile) : CFile :=
  if fileModified mps sfs allP cats fp f then
    ⟨applyProducts mps sfs allP cats fp f,
      (applyProducts mps sfs allP cats fp f).length⟩
  else f

/-- `CategoryCleanup.apply_fixes` in `--apply` mode (lines 559-659), as the
store transform it performs. -/
def apply_fixes (store : Store) : Store :=
  store.map (fun e =>
    (e.1, applyFile (analyze store).1 (analyze store).2 (buildAllP store)
      (catsWithProducts store) e.1 e.2))

/-- Every productId seen on a reload of the store (lines 665-675). -/
def idsOf (store : Store) : List String :=
  store.foldl (fun acc e => acc ++ e.2.products.map (fun p => p.productId)) []

/-- `CategoryCleanup.verify_no_products_lost` (lines 661-696): the run is
clean iff no id of `all_products` is missing from the reloaded store
(`lost = original_ids - new_products; return len(lost) == 0`). -/
def verify_no_products_lost (store_after : Store)
    (allP : List (String × CProduct)) : Bool :=
  (allP.map Prod.fst).all (fun pid => (idsOf store_after).contains pid)

/-- `main` (lines 699-733): the analysis and report always run; the store is
mutated only under `--apply`. -/
def runMain (store : Store) (applyFlag : Bool) :
    (List MP × List SF) × Store :=
  (analyze store, if applyFlag then apply_fixes store else store)

end CleanupRun

namespace CleanupRun

open PyStr

theorem alookup_mem {α : Type} (k : String) :
    ∀ (m : List (String × α)) (v : α), alookup k m = some v → (k, v) ∈ m := by
  intro m
  induction m with
  | nil => intro v h; exact Option.noConfusion h
  | cons e t ih =>
      intro v h
      obtain ⟨k₁, v₁⟩ := e
      simp only [alookup] at h
      by_cases hk : k₁ = k
      · rw [if_pos hk] at h
        rw [← Option.some.inj h, ← hk]
        exact List.mem_cons_self _ _
      · rw [if_neg hk] at h
        exact List.mem_cons_of_mem _ (ih v h)

theorem alookup_some_of_mem_fst {α : Type} (k : String) :
    ∀ m : List (String × α), k ∈ m.map Prod.fst → ∃ v, alookup k m = some v := by
  intro m
  induction m with
  | nil => intro h; simp at h
  | cons e t ih =>
      intro h
      obtain ⟨k₁, v₁⟩ := e
      by_cases hk : k₁ = k
      · exact ⟨v₁, by simp only [alookup]; rw [if_pos hk]⟩
      · have h₂ : k ∈ t.map Prod.fst := by
          rcases List.mem_map.mp h with ⟨e₂, he₂, heq⟩
          rcases List.mem_cons.mp he₂ with rfl | hm
          · exact absurd heq hk
          · exact List.mem_map.mpr ⟨e₂, hm, heq⟩
        obtain ⟨v, hv⟩ := ih h₂
        exact ⟨v, by simp only [alookup]; rw [if_neg hk]; exact hv⟩

theorem setAP_pres (P : String × Cleanup.CProduct → Prop)
    (m : List (String × Cleanup.CProduct)) (k : String) (v : Cleanup.CProduct)
    (hm : ∀ e ∈ m, P e) (hv : P (k, v)) : ∀ e ∈ setAP m k v, P e := by
  intro e he
  by_cases hc : ((m.map Prod.fst).contains k) = true
  · simp only [setAP] at he
    rw [if_pos hc] at he
    rcases List.mem_map.mp he with ⟨e₀, he₀, heq⟩
    by_cases h₁ : (e₀.1 == k) = true
    · rw [if_pos h₁] at heq
      rw [← heq]
      exact hv
    · rw [if_neg h₁] at heq
      rw [← heq]
      exact hm e₀ he₀
  · simp only [setAP] at he
    rw [if_neg hc] at he
    rcases List.mem_append.mp he with h | h
    · exact hm e h
    · rw [List.mem_singleton.mp h]
      exact hv

theorem productsFold_pres (P : String × Cleanup.CProduct → Prop) :
    ∀ (ps : List Cleanup.CProduct) (m : List (String × Cleanup.CProduct)),
      (∀ e ∈ m, P e) → (∀ p ∈ ps, P (p.productId, p)) →
      ∀ e ∈ ps.foldl (fun m' p =>
          if p.productId == "" then m' else setAP m' p.productId p) m, P e := by
  intro ps
  induction ps with
  | nil => intro m hm _; simpa using hm
  | cons p ps ih =>
      intro m hm hps
      rw [List.foldl_cons]
      apply ih
      · by_cases hp : (p.productId == "") = true
        · rw [if_pos hp]; exact hm
        · rw [if_neg hp]
          exact setAP_pres P m p.productId p hm (hps p (List.mem_cons_self _ _))
      · intro q hq
        exact hps q (List.mem_cons_of_mem _ hq)

theorem buildAllP_pres (P : String × Cleanup.CProduct → Prop) :
    ∀ (fs : Store) (m : List (String × Cleanup.CProduct)),
      (∀ e ∈ m, P e) →
      (∀ fe ∈ fs, ∀ p ∈ fe.2.products, P (p.productId, p)) →
      ∀ e ∈ fs.foldl (fun m e => e.2.products.foldl
          (fun m' p => if p.productId == "" then m' else setAP m' p.productId p)
          m) m,
        P e := by
  intro fs
  induction fs with
  | nil => intro m hm _; simpa using hm
  | cons fe fs ih =>
      intro m hm hfs
      rw [List.foldl_cons]
      apply ih
      · exact productsFold_pres P fe.2.products m hm
          (hfs fe (List.mem_cons_self _ _))
      · intro fe₂ hfe₂ p hp
        exact hfs fe₂ (List.mem_cons_of_mem _ hfe₂) p hp

theorem buildAllP_sound (store : Store) :
    ∀ e ∈ buildAllP store,
      e.2.productId = e.1 ∧ ∃ fe ∈ store, e.2 ∈ fe.2.products := by
  unfold buildAllP
  refine buildAllP_pres _ store [] (by simp) ?_
  intro fe hfe p hp
  exact ⟨rfl, fe, hfe, hp⟩

theorem mem_idsOf_fold :
    ∀ (fs : Store) (acc : List String) (pid : String),
      (pid ∈ fs.foldl
          (fun acc e => acc ++ e.2.products.map (fun p => p.productId)) acc)
      ↔ pid ∈ acc ∨ ∃ fe ∈ fs, ∃ p ∈ fe.2.products, p.productId = pid := by
  intro fs
  induction fs with
  | nil => intro acc pid; simp
  | cons fe fs ih =>
      intro acc pid
      rw [List.foldl_cons, ih]
      constructor
      · rintro (h | h)
        · rcases List.mem_append.mp h with h₁ | h₁
          · exact Or.inl h₁
          · rcases List.mem_map.mp h₁ with ⟨p, hp, hpe⟩
            exact Or.inr ⟨fe, List.mem_cons_self _ _, p, hp, hpe⟩
        · obtain ⟨fe₂, hfe₂, p, hp, hpe⟩ := h
          exact Or.inr ⟨fe₂, List.mem_cons_of_mem _ hfe₂, p, hp, hpe⟩
      · rintro (h | ⟨fe₂, hfe₂, p, hp, hpe⟩)
        · exact Or.inl (List.mem_append.mpr (Or.inl h))
        · rcases List.mem_cons.mp hfe₂ with rfl | hm
          · exact Or.inl (List.mem_append.mpr (Or.inr
              (List.mem_map.mpr ⟨p, hp, hpe⟩)))
          · exact Or.inr ⟨fe₂, hm, p, hp, hpe⟩

theorem mem_idsOf (store : Store) (pid : String) :
    pid ∈ idsOf store
      ↔ ∃ fe ∈ store, ∃ p ∈ fe.2.products, p.productId = pid := by
  unfold idsOf
  rw [mem_idsOf_fold]
  simp

theorem relocRecord_some (allP : List (String × Cleanup.CProduct))
    (cats : List String) (mp : MP) (v : Cleanup.CProduct)
    (hl : alookup mp.productId allP = some v) :
    ∃ q, relocRecord allP cats mp
        = some (resolvedTarget cats mp.suggested_category, q)
      ∧ q.productId = v.productId := by
  unfold relocRecord resolvedTarget
  rw [hl]
  dsimp only
  cases hs : suggest_subcategory v.title mp.suggested_category with
  | some s =>
      dsimp only
      by_cases hc : (cats.contains mp.suggested_category) = true
      · rw [if_pos hc, if_pos hc]
        exact ⟨{ v with subcategory := s }, rfl, rfl⟩
      · rw [if_neg hc, if_neg hc]
        exact ⟨{ v with subcategory := s }, rfl, rfl⟩
  | none =>
      dsimp only
      by_cases hc : (cats.contains mp.suggested_category) = true
      · rw [if_pos hc, if_pos hc]
        exact ⟨v, rfl, rfl⟩
      · rw [if_neg hc, if_neg hc]
        exact ⟨v, rfl, rfl⟩

theorem mem_addsFor (mps : List MP) (allP : List (String × Cleanup.CProduct))
    (cats : List String) (mp : MP) (tf : String) (q : Cleanup.CProduct)
    (hmp : mp ∈ mps) (hr : relocRecord allP cats mp = some (tf, q)) :
    q ∈ addsFor mps allP cats tf := by
  unfold addsFor
  refine List.mem_filterMap.mpr ⟨mp, hmp, ?_⟩
  rw [hr]
  simp

theorem fileModified_of_adds (mps : List MP) (sfs : List SF)
    (allP : List (String × Cleanup.CProduct)) (cats : List String)
    (fp : String) (f : CFile) (h : addsFor mps allP cats fp ≠ []) :
    fileModified mps sfs allP cats fp f = true := by
  unfold fileModified
  have he : (addsFor mps allP cats fp).isEmpty = false := by
    cases hA : addsFor mps allP cats fp with
    | nil => exact absurd hA h
    | cons a t => rfl
  rw [he]
  simp

theorem applyProducts_mem_add (mps : List MP) (sfs : List SF)
    (allP : List (String × Cleanup.CProduct)) (cats : List String)
    (fp : String) (f : CFile) (q : Cleanup.CProduct)
    (hq : q ∈ addsFor mps allP cats fp) :
    ∃ r ∈ applyProducts mps sfs allP cats fp f, r.productId = q.productId := by
  unfold applyProducts
  refine ⟨_, List.mem_map_of_mem _ (List.mem_append.mpr (Or.inr hq)), ?_⟩
  cases subFixFor sfs fp q.productId with
  | some s => rfl
  | none => rfl

theorem applyProducts_mem_keep (mps : List MP) (sfs : List SF)
    (allP : List (String × Cleanup.CProduct)) (cats : List String)
    (fp : String) (f : CFile) (p : Cleanup.CProduct)
    (hp : p ∈ f.products) (hnr : p.productId ∉ removeSet mps fp) :
    ∃ r ∈ applyProducts mps sfs allP cats fp f, r.productId = p.productId := by
  unfold applyProducts
  have hf : p ∈ f.products.filter
      (fun p => !(removeSet mps fp).contains p.productId) :=
    List.mem_filter.mpr ⟨hp, by simpa using hnr⟩
  refine ⟨_, List.mem_map_of_mem _ (List.mem_append.mpr (Or.inl hf)), ?_⟩
  cases subFixFor sfs fp p.productId with
  | some s => rfl
  | none => rfl

theorem mem_apply_fixes (store : Store) (fp : String) (f : CFile)
    (h : (fp, f) ∈ store) :
    (fp, applyFile (analyze store).1 (analyze store).2 (buildAllP store)
        (catsWithProducts store) fp f) ∈ apply_fixes store := by
  unfold apply_fixes
  have hx := List.mem_map_of_mem (fun e : String × CFile =>
    (e.1, applyFile (analyze store).1 (analyze store).2 (buildAllP store)
      (catsWithProducts store) e.1 e.2)) h
  simpa using hx

theorem mem_removeSet (mps : List MP) (fp pid : String) :
    pid ∈ removeSet mps fp
      ↔ ∃ mp ∈ mps, mp.current_file = fp ∧ mp.productId = pid := by
  unfold removeSet
  constructor
  · intro h
    rcases List.mem_map.mp h with ⟨mp, hmp, heq⟩
    have hm := List.mem_filter.mp hmp
    exact ⟨mp, hm.1, by simpa using hm.2, heq⟩
  · rintro ⟨mp, hmp, hfp, hpid⟩
    exact List.mem_map.mpr ⟨mp, List.mem_filter.mpr ⟨hmp, by simpa using hfp⟩, hpid⟩

/-- A store on which a relocation target resolves to a file that was never
loaded: `tools.json` does not exist (only `tools/saws.json` does). -/
def lostStore : Store :=
  [("appliances.json", ⟨[⟨"100000001", "MIG Welder", "RYOBI", ""⟩], 1⟩),
   ("tools/saws.json", ⟨[⟨"100000002", "Circular Saw", "RYOBI", "Saws"⟩], 1⟩)]

/-- The same relocation with the top-level `tools.json` present. -/
def targetsStore : Store :=
  [("appliances.json", ⟨[⟨"100000001", "MIG Welder", "RYOBI", ""⟩], 1⟩),
   ("tools.json", ⟨[], 0⟩)]

/-- A store whose relocation target category `home-decor` has no products
file, so the apply run redirects the product to `other.json`. -/
def redirectStore : Store :=
  [("appliances.json",
    ⟨[⟨"100000003", "Artificial Hydrangea", "Nearly Natural", ""⟩], 1⟩),
   ("other.json", ⟨[], 0⟩)]

/-- A store the cleanup pass finds nothing to change in. -/
def quietStore : Store :=
  [("tools.json", ⟨[⟨"100000002", "Circular Saw", "RYOBI", "Saws"⟩], 1⟩)]

end CleanupRun

/-- C1 counterexample: on `lostStore` the welder is reported as misplaced to
`tools`, but the resolved target file `tools.json` was never loaded (only
`tools/saws.json` was), so the apply run removes the product from its source
and adds it nowhere — the id is lost, and the end-of-run verification
reports the loss by returning false. -/
theorem C1_counterexample_product_lost :
    "100000001" ∈ (CleanupRun.buildAllP CleanupRun.lostStore).map Prod.fst
    ∧ "100000001" ∉ CleanupRun.idsOf (CleanupRun.apply_fixes CleanupRun.lostStore)
    ∧ CleanupRun.verify_no_products_lost
        (CleanupRun.apply_fixes CleanupRun.lostStore)
        (CleanupRun.buildAllP CleanupRun.lostStore) = false := by
  decide

/-- C1: whenever every reported relocation's resolved target file (the
top-level `{category}.json`, or `other.json` after the redirect) is among the
loaded category files, no productId of `all_products` is lost by the apply
run, and the end-of-run verification confirms it. -/
theorem C1_no_loss_when_targets_loaded (store : CleanupRun.Store)
    (htarget : ∀ mp ∈ (CleanupRun.analyze store).1,
      CleanupRun.resolvedTarget (CleanupRun.catsWithProducts store)
          mp.suggested_category
        ∈ store.map Prod.fst) :
    (∀ pid ∈ (CleanupRun.buildAllP store).map Prod.fst,
        pid ∈ CleanupRun.idsOf (CleanupRun.apply_fixes store))
    ∧ CleanupRun.verify_no_products_lost (CleanupRun.apply_fixes store)
        (CleanupRun.buildAllP store) = true := by
  have main : ∀ pid ∈ (CleanupRun.buildAllP store).map Prod.fst,
      pid ∈ CleanupRun.idsOf (CleanupRun.apply_fixes store) := by
    intro pid hpid
    by_cases hmp : ∃ mp ∈ (CleanupRun.analyze store).1, mp.productId = pid
    · obtain ⟨mp, hmpmem, hmppid⟩ := hmp
      obtain ⟨v, hl⟩ :=
        CleanupRun.alookup_some_of_mem_fst pid (CleanupRun.buildAllP store) hpid
      have hl' : PyStr.alookup mp.productId (CleanupRun.buildAllP store)
          = some v := by
        rw [hmppid]; exact hl
      have hvpid : v.productId = pid :=
        (CleanupRun.buildAllP_sound store (pid, v)
          (CleanupRun.alookup_mem pid _ v hl)).1
      obtain ⟨q, hrel, hqid⟩ := CleanupRun.relocRecord_some
        (CleanupRun.buildAllP store) (CleanupRun.catsWithProducts store) mp v hl'
      have hadd := CleanupRun.mem_addsFor (CleanupRun.analyze store).1
        (CleanupRun.buildAllP store) (CleanupRun.catsWithProducts store) mp
        (CleanupRun.resolvedTarget (CleanupRun.catsWithProducts store)
          mp.suggested_category) q hmpmem hrel
      have htf := htarget mp hmpmem
      rcases List.mem_map.mp htf with ⟨te, htfmem, htfeq⟩
      have htfeq' : te.1 = CleanupRun.resolvedTarget
          (CleanupRun.catsWithProducts store) mp.suggested_category := htfeq
      rw [← htfeq'] at hadd
      have hmod : CleanupRun.fileModified (CleanupRun.analyze store).1
          (CleanupRun.analyze store).2 (CleanupRun.buildAllP store)
          (CleanupRun.catsWithProducts store) te.1 te.2 = true :=
        CleanupRun.fileModified_of_adds _ _ _ _ te.1 te.2
          (List.ne_nil_of_mem hadd)
      obtain ⟨r, hr, hrid⟩ := CleanupRun.applyProducts_mem_add
        (CleanupRun.analyze store).1 (CleanupRun.analyze store).2
        (CleanupRun.buildAllP store) (CleanupRun.catsWithProducts store)
        te.1 te.2 q hadd
      refine (CleanupRun.mem_idsOf (CleanupRun.apply_fixes store) pid).mpr
        ⟨(te.1, CleanupRun.applyFile (CleanupRun.analyze store).1
            (CleanupRun.analyze store).2 (CleanupRun.buildAllP store)
            (CleanupRun.catsWithProducts store) te.1 te.2),
          CleanupRun.mem_apply_fixes store te.1 te.2 htfmem, r, ?_, ?_⟩
      · unfold CleanupRun.applyFile
        rw [if_pos hmod]
        exact hr
      · rw [hrid, hqid, hvpid]
    · push_neg at hmp
      rcases List.mem_map.mp hpid with ⟨kv, hkv, hke⟩
      obtain ⟨hvk, fe, hfe, hvp⟩ := CleanupRun.buildAllP_sound store kv hkv
      have hke' : kv.1 = pid := hke
      have hnr : kv.2.productId ∉ CleanupRun.removeSet
          (CleanupRun.analyze store).1 fe.1 := by
        intro hin
        rcases (CleanupRun.mem_removeSet _ _ _).mp hin with ⟨mp, hmpm, _, hmpid⟩
        exact hmp mp hmpm (hmpid.trans (hvk.trans hke'))
      by_cases hmod : CleanupRun.fileModified (CleanupRun.analyze store).1
          (CleanupRun.analyze store).2 (CleanupRun.buildAllP store)
          (CleanupRun.catsWithProducts store) fe.1 fe.2 = true
      · obtain ⟨r, hr, hrid⟩ := CleanupRun.applyProducts_mem_keep
          (CleanupRun.analyze store).1 (CleanupRun.analyze store).2
          (CleanupRun.buildAllP store) (CleanupRun.catsWithProducts store)
          fe.1 fe.2 kv.2 hvp hnr
        refine (CleanupRun.mem_idsOf (CleanupRun.apply_fixes store) pid).mpr
          ⟨(fe.1, CleanupRun.applyFile (CleanupRun.analyze store).1
              (CleanupRun.analyze store).2 (CleanupRun.buildAllP store)
              (CleanupRun.catsWithProducts store) fe.1 fe.2),
            CleanupRun.mem_apply_fixes store fe.1 fe.2 hfe, r, ?_, ?_⟩
        · unfold CleanupRun.applyFile
          rw [if_pos hmod]
          exact hr
        · rw [hrid, hvk, hke']
      · refine (CleanupRun.mem_idsOf (CleanupRun.apply_fixes store) pid).mpr
          ⟨(fe.1, CleanupRun.applyFile (CleanupRun.analyze store).1
              (CleanupRun.analyze store).2 (CleanupRun.buildAllP store)
              (CleanupRun.catsWithProducts store) fe.1 fe.2),
            CleanupRun.mem_apply_fixes store fe.1 fe.2 hfe, kv.2, ?_,
            hvk.trans hke'⟩
        unfold CleanupRun.applyFile
        rw [if_neg hmod]
        exact hvp
  refine ⟨main, ?_⟩
  unfold CleanupRun.verify_no_products_lost
  rw [List.all_eq_true]
  intro pid hpid
  simpa using main pid hpid

/-- Concrete instance of C1's amended guarantee on `targetsStore`, where the
single relocation's target file `tools.json` is loaded. -/
theorem C1_no_loss_when_targets_loaded_witness :
    (∀ mp ∈ (CleanupRun.analyze CleanupRun.targetsStore).1,
      CleanupRun.resolvedTarget
          (CleanupRun.catsWithProducts CleanupRun.targetsStore)
          mp.suggested_category
        ∈ CleanupRun.targetsStore.map Prod.fst)
    ∧ ((∀ pid ∈ (CleanupRun.buildAllP CleanupRun.targetsStore).map Prod.fst,
          pid ∈ CleanupRun.idsOf
            (CleanupRun.apply_fixes CleanupRun.targetsStore))
      ∧ CleanupRun.verify_no_products_lost
          (CleanupRun.apply_fixes CleanupRun.targetsStore)
          (CleanupRun.buildAllP CleanupRun.targetsStore) = true) :=
  ⟨by decide, C1_no_loss_when_targets_loaded CleanupRun.targetsStore (by decide)⟩

/-- C4 counterexample: on `redirectStore` the report proposes relocating the
product to `home-decor`, but the apply run's actual mutation redirects it to
`other.json` because `home-decor` has no products file — the performed
mutation is not the relocation the report lists. -/
theorem C4_counterexample_redirected_relocation :
    ((CleanupRun.analyze CleanupRun.redirectStore).1.map
        (fun mp => (mp.productId, mp.suggested_category))
      = [("100000003", "home-decor")])
    ∧ CleanupRun.apply_fixes CleanupRun.redirectStore
      = [("appliances.json", ⟨[], 0⟩),
         ("other.json",
          ⟨[⟨"100000003", "Artificial Hydrangea", "Nearly Natural", ""⟩], 1⟩)]
    ∧ "home-decor.json"
        ∉ (CleanupRun.apply_fixes CleanupRun.redirectStore).map Prod.fst := by
  decide

/-- C4: the analysis and its report are computed before and independently of
the dry-run flag, so a dry run and an apply run produce the identical report;
the dry run leaves the store untouched; and the apply run leaves every file
whose modified flag is off untouched. -/
theorem C4_dry_run_equivalence_and_frame (store : CleanupRun.Store)
    (fp : String) (f : CleanupRun.CFile)
    (hmem : (fp, f) ∈ store)
    (hunmod : CleanupRun.fileModified (CleanupRun.analyze store).1
        (CleanupRun.analyze store).2 (CleanupRun.buildAllP store)
        (CleanupRun.catsWithProducts store) fp f = false) :
    (CleanupRun.runMain store false).1 = (CleanupRun.runMain store true).1
    ∧ (CleanupRun.runMain store false).2 = store
    ∧ (fp, f) ∈ (CleanupRun.runMain store true).2 := by
  refine ⟨rfl, rfl, ?_⟩
  have happ := CleanupRun.mem_apply_fixes store fp f hmem
  have heq : CleanupRun.applyFile (CleanupRun.analyze store).1
      (CleanupRun.analyze store).2 (CleanupRun.buildAllP store)
      (CleanupRun.catsWithProducts store) fp f = f := by
    unfold CleanupRun.applyFile
    rw [if_neg (by simp [hunmod])]
  rw [heq] at happ
  show (fp, f) ∈ CleanupRun.apply_fixes store
  exact happ

/-- Concrete instance of C4's amended guarantee on `quietStore`, whose single
file the run does not modify. -/
theorem C4_dry_run_equivalence_and_frame_witness :
    (("tools.json",
        (⟨[⟨"100000002", "Circular Saw", "RYOBI", "Saws"⟩], 1⟩
          : CleanupRun.CFile)) ∈ CleanupRun.quietStore
      ∧ CleanupRun.fileModified
          (CleanupRun.analyze CleanupRun.quietStore).1
          (CleanupRun.analyze CleanupRun.quietStore).2
          (CleanupRun.buildAllP CleanupRun.quietStore)
          (CleanupRun.catsWithProducts CleanupRun.quietStore)
          "tools.json" ⟨[⟨"100000002", "Circular Saw", "RYOBI", "Saws"⟩], 1⟩
        = false)
    ∧ ((CleanupRun.runMain CleanupRun.quietStore false).1
        = (CleanupRun.runMain CleanupRun.quietStore true).1
      ∧ (CleanupRun.runMain CleanupRun.quietStore false).2 = CleanupRun.quietStore
      ∧ ("tools.json",
          (⟨[⟨"100000002", "Circular Saw", "RYOBI", "Saws"⟩], 1⟩
            : CleanupRun.CFile))
          ∈ (CleanupRun.runMain CleanupRun.quietStore true).2) :=
  ⟨⟨by decide, by decide⟩,
    C4_dry_run_equivalence_and_frame CleanupRun.quietStore "tools.json"
      ⟨[⟨"100000002", "Circular Saw", "RYOBI", "Saws"⟩], 1⟩
      (by decide) (by decide)⟩

/-!
## `scripts/consolidate_structure.py` and `scripts/rebuild_category_index.py` (C3)

Category files are modelled as in the cleanup run (`CleanupRun.CFile`:
`products` plus `pageInfo.totalResults`); the metadata the scripts carry
along but never count (`featuredBrands`, `lastUpdated`, breadcrumbs) is not
tracked.
-/

namespace Consolidate

open PyStr

/-- `[a-z0-9]`, the characters `slugify` keeps. -/
def isSlugChar (c : Char) : Bool :=
  ('a' ≤ c && c ≤ 'z') || c.isDigit

/-- `re.sub(r'[^a-z0-9]+', '-', slug)`: every maximal run of non-slug
characters becomes one dash.  Each step consumes at least one character, so
the input length is enough fuel. -/
def collapseRuns : Nat → List Char → List Char
  | 0, _ => []
  | _ + 1, [] => []
  | fuel + 1, c :: t =>
      if isSlugChar c then c :: collapseRuns fuel t
      else '-' :: collapseRuns fuel (t.dropWhile (fun d => !isSlugChar d))

/-- Python `slug.strip('-')`. -/
def stripDashes (l : List Char) : List Char :=
  ((l.dropWhile (fun c => c == '-')).reverse.dropWhile (fun c => c == '-')).reverse

/-- `slugify` (consolidate_structure.py lines 27-32). -/
def slugify (name : String) : String :=
  String.mk (stripDashes (collapseRuns (lower name).data.length (lower name).data))

/-- `get_product_subcategory_slug` (lines 48-123): the title-substring chain,
then the slugified `subcategory` field as fallback. -/
def get_product_subcategory_slug (p : Cleanup.CProduct) : Option String :=
  if strIn "french door" (lower p.title) || strIn "french-door" (lower p.title) then
    some "french-door"
  else if strIn "side by side" (lower p.title)
      || strIn "side-by-side" (lower p.title) then some "side-by-side"
  else if strIn "top freezer" (lower p.title)
      || strIn "top-freezer" (lower p.title) then some "top-freezer"
  else if strIn "bottom freezer" (lower p.title)
      || strIn "bottom-freezer" (lower p.title) then some "bottom-freezer"
  else if strIn "counter depth" (lower p.title)
      || strIn "counter-depth" (lower p.title) then some "counter-depth"
  else if strIn "freezerless" (lower p.title) then some "freezerless"
  else if strIn "mini fridge" (lower p.title) || strIn "compact" (lower p.title)
      || strIn "mini refrigerator" (lower p.title) then some "mini-fridges"
  else if strIn "table saw" (lower p.title) then some "table-saws"
  else if strIn "miter saw" (lower p.title)
      || strIn "mitre saw" (lower p.title) then some "miter-saws"
  else if strIn "circular saw" (lower p.title) then some "circular-saws"
  else if strIn "jigsaw" (lower p.title)
      || strIn "jig saw" (lower p.title) then some "jigsaws"
  else if strIn "band saw" (lower p.title) then some "band-saws"
  else if strIn "reciprocating saw" (lower p.title)
      || strIn "recip saw" (lower p.title)
      || strIn "sawzall" (lower p.title) then some "reciprocating-saws"
  else if strIn "hammer drill" (lower p.title) then some "hammer-drills"
  else if strIn "right angle" (lower p.title) then some "right-angle-drills"
  else if strIn "impact driver" (lower p.title) then some "impact-drivers"
  else if strIn "framing" (lower p.title) then some "framing"
  else if strIn "finishing" (lower p.title)
      || strIn "finish nailer" (lower p.title)
      || strIn "brad nailer" (lower p.title) then some "finishing"
  else if strIn "roofing" (lower p.title) then some "roofing"
  else if strIn "flooring" (lower p.title) then some "flooring"
  else if strIn "pneumatic" (lower p.title) then some "pneumatic"
  else if strIn "portable" (lower p.title)
      || strIn "pancake" (lower p.title) then some "portable"
  else if strIn "stationary" (lower p.title)
      || strIn "vertical" (lower p.title) then some "stationary"
  else if strIn "hydrangea" (lower p.title) then some "hydrangeas"
  else if strIn "succulent" (lower p.title) then some "succulents"
  else if strIn "tree" (lower p.title) || strIn "palm" (lower p.title)
      || strIn "ficus" (lower p.title) then some "trees"
  else if strIn "flower" (lower p.title) || strIn "rose" (lower p.title)
      || strIn "orchid" (lower p.title) then some "flowers"
  else if !(p.subcategory == "") then some (slugify p.subcategory)
  else none

/-- Lexicographic comparison of strings as Python `sorted` orders the child
slugs (code-point order). -/
def lexLe : List Char → List Char → Bool
  | [], _ => true
  | _ :: _, [] => false
  | a :: as, b :: bs => if a < b then true else if b < a then false else lexLe as bs

/-- Appending a product to the child file stored under `slug` (the Python
dict holds each slug once). -/
def addToChild : List (String × CleanupRun.CFile) → String → Cleanup.CProduct
    → List (String × CleanupRun.CFile)
  | [], _, _ => []
  | e :: t, slug, p =>
      if e.1 == slug then (e.1, ⟨e.2.products ++ [p], e.2.totalResults⟩) :: t
      else e :: addToChild t slug p

/-- One step of the distribution loop (lines 228-236): route the product to
its subcategory's child file when that file exists, else to `unmatched`. -/
def distStep (st : List (String × CleanupRun.CFile) × List Cleanup.CProduct)
    (p : Cleanup.CProduct) :
    List (String × CleanupRun.CFile) × List Cleanup.CProduct :=
  match get_product_subcategory_slug p with
  | some t =>
      if (st.1.map Prod.fst).contains t then (addToChild st.1 t p, st.2)
      else (st.1, st.2 ++ [p])
  | none => (st.1, st.2 ++ [p])

/-- The distribution loop over the parent's products. -/
def distributed (parent : CleanupRun.CFile)
    (children : List (String × CleanupRun.CFile)) :
    List (String × CleanupRun.CFile) × List Cleanup.CProduct :=
  parent.products.foldl distStep (children, [])

/-- Lines 248-270: create the `other` child file if it is missing. -/
def ensureOther (cs : List (String × CleanupRun.CFile)) :
    List (String × CleanupRun.CFile) :=
  if (cs.map Prod.fst).contains "other" then cs else cs ++ [("other", ⟨[], 0⟩)]

/-- Lines 272-273: append every unmatched product to the `other` file. -/
def addAllToOther (cs : List (String × CleanupRun.CFile))
    (ps : List Cleanup.CProduct) : List (String × CleanupRun.CFile) :=
  ps.foldl (fun cs p => addToChild cs "other" p) cs

/-- The child map after distribution and the unmatched fallback. -/
def afterUnmatched (parent : CleanupRun.CFile)
    (children : List (String × CleanupRun.CFile)) :
    List (String × CleanupRun.CFile) :=
  if (distributed parent children).2.isEmpty then (distributed parent children).1
  else addAllToOther (ensureOther (distributed parent children).1)
    (distributed parent children).2

/-- The save loop (lines 275-285): files that now hold products get
`pageInfo.totalResults` refreshed; empty files are not rewritten. -/
def saveChildren (cs : List (String × CleanupRun.CFile)) :
    List (String × CleanupRun.CFile) :=
  cs.map (fun e =>
    if e.2.products.isEmpty then e else (e.1, ⟨e.2.products, e.2.products.length⟩))

/-- The result of one `consolidate_category` run: the parent's recomputed
`pageInfo.totalResults`, its `subcategories` entries as (slug, productCount)
pairs, and the final child files. -/
structure ConsOut where
  parentTotal : Nat
  subcats : List (String × Nat)
  children : List (String × CleanupRun.CFile)
  deriving DecidableEq, Repr

/-- `consolidate_category` (consolidate_structure.py lines 198-319) as a pure
transform; `none` is the early return when the parent holds no products. -/
def consolidate_category (parent : CleanupRun.CFile)
    (children : List (String × CleanupRun.CFile)) : Option ConsOut :=
  if parent.products.isEmpty then none
  else
    some
      ⟨((afterUnmatched parent children).map
          (fun e => e.2.products.length)).sum,
        ((afterUnmatched parent children).insertionSort
            (fun a b => lexLe a.1.data b.1.data = true)).filterMap
          (fun e =>
            if e.2.products.isEmpty then none
            else some (e.1, e.2.products.length)),
        saveChildren (afterUnmatched parent children)⟩

end Consolidate

namespace Rebuild

open PyStr

/-- One node of `index.json`: its id, `productCount`, and subcategories. -/
inductive CatNode where
  | mk (cid : String) (productCount : Nat) (subcategories : List CatNode)

def CatNode.cid : CatNode → String
  | .mk i _ _ => i

def CatNode.productCount : CatNode → Nat
  | .mk _ n _ => n

def CatNode.subcategories : CatNode → List CatNode
  | .mk _ _ s => s

/-- The file name after the final slash. -/
def baseName (fp : String) : String :=
  String.mk ((fp.data.reverse.takeWhile (fun c => c != '/')).reverse)

/-- `get_category_counts` (rebuild_category_index.py lines 14-33): one
(category id, product count) entry per non-underscore, non-index file. -/
def get_category_counts (files : List (String × CleanupRun.CFile)) :
    List (String × Nat) :=
  (files.filter (fun e =>
      !("_".data.isPrefixOf (baseName e.1).data || baseName e.1 == "index.json"))).map
    (fun e => (CleanupRun.pyreplace e.1 ".json" "", e.2.products.length))

/-- `total_products = sum(counts.values())` (line 58). -/
def total_products (files : List (String × CleanupRun.CFile)) : Nat :=
  ((get_category_counts files).map Prod.snd).sum

mutual

/-- `update_category` (lines 61-68): refresh a node's count when its id has a
file, keep the stored count otherwise; recurse into subcategories. -/
def updateCategory (counts : List (String × Nat)) : CatNode → CatNode
  | .mk i pc subs =>
      .mk i
        (match alookup i counts with
         | some n => n
         | none => pc)
        (updateList counts subs)

def updateList (counts : List (String × Nat)) : List CatNode → List CatNode
  | [] => []
  | c :: t => updateCategory counts c :: updateList counts t

end

/-- `counts.get("furniture/outdoor", 0)`. -/
def countsGet (counts : List (String × Nat)) (k : String) : Nat :=
  match alookup k counts with
  | some n => n
  | none => 0

/-- Lines 71-84: append a `furniture/outdoor` subcategory to the first
`furniture` node when the file exists but the node does not. -/
def addOutdoorList (counts : List (String × Nat)) :
    List CatNode → List CatNode
  | [] => []
  | c :: t =>
      if c.cid == "furniture" then
        (if c.subcategories.any (fun s => s.cid == "furniture/outdoor")
            || !(counts.map Prod.fst).contains "furniture/outdoor" then c
         else CatNode.mk c.cid c.productCount
            (c.subcategories
              ++ [CatNode.mk "furniture/outdoor"
                  (countsGet counts "furniture/outdoor") []])) :: t
      else c :: addOutdoorList counts t

/-- `main` (lines 49-94): the updated category tree and the new
`totalProducts`. -/
def rebuild_index (files : List (String × CleanupRun.CFile))
    (cats : List CatNode) : List CatNode × Nat :=
  (updateList (get_category_counts files)
      (addOutdoorList (get_category_counts files) cats),
    total_products files)

end Rebuild

namespace Consolidate

theorem addToChild_fst (slug : String) (p : Cleanup.CProduct) :
    ∀ cs : List (String × CleanupRun.CFile),
      (addToChild cs slug p).map Prod.fst = cs.map Prod.fst := by
  intro cs
  induction cs with
  | nil => rfl
  | cons e t ih =>
      simp only [addToChild]
      by_cases he : (e.1 == slug) = true
      · rw [if_pos he]
        simp
      · rw [if_neg he]
        simp only [List.map_cons]
        rw [ih]

theorem addToChild_sum (slug : String) (p : Cleanup.CProduct) :
    ∀ cs : List (String × CleanupRun.CFile),
      ((cs.map Prod.fst).contains slug) = true →
      ((addToChild cs slug p).map (fun e => e.2.products.length)).sum
        = ((cs.map (fun e => e.2.products.length)).sum) + 1 := by
  intro cs
  induction cs with
  | nil => intro h; simp at h
  | cons e t ih =>
      intro h
      simp only [addToChild]
      by_cases he : (e.1 == slug) = true
      · rw [if_pos he]
        simp [List.length_append]
        omega
      · rw [if_neg he]
        have hm : slug ∈ e.1 :: t.map Prod.fst := by simpa using h
        have h' : ((t.map Prod.fst).contains slug) = true := by
          rcases List.mem_cons.mp hm with heq | hm₂
          · exact absurd (by simp [heq]) he
          · simpa using hm₂
        simp only [List.map_cons, List.sum_cons]
        rw [ih h']
        omega

theorem distStep_sum (st : List (String × CleanupRun.CFile) × List Cleanup.CProduct)
    (p : Cleanup.CProduct) :
    ((distStep st p).1.map (fun e => e.2.products.length)).sum
        + (distStep st p).2.length
      = ((st.1.map (fun e => e.2.products.length)).sum + st.2.length) + 1 := by
  unfold distStep
  cases get_product_subcategory_slug p with
  | some t =>
      dsimp only
      by_cases hc : ((st.1.map Prod.fst).contains t) = true
      · rw [if_pos hc]
        dsimp only
        rw [addToChild_sum t p st.1 hc]
        omega
      · rw [if_neg hc]
        dsimp only
        rw [List.length_append]
        simp
        omega
  | none =>
      dsimp only
      rw [List.length_append]
      simp
      omega

theorem distFold_sum :
    ∀ (ps : List Cleanup.CProduct)
      (st : List (String × CleanupRun.CFile) × List Cleanup.CProduct),
      ((ps.foldl distStep st).1.map (fun e => e.2.products.length)).sum
          + ((ps.foldl distStep st).2).length
        = ((st.1.map (fun e => e.2.products.length)).sum + st.2.length)
          + ps.length := by
  intro ps
  induction ps with
  | nil => intro st; simp
  | cons p ps ih =>
      intro st
      rw [List.foldl_cons, ih (distStep st p), distStep_sum st p]
      simp [List.length_cons]
      omega

theorem ensureOther_sum (cs : List (String × CleanupRun.CFile)) :
    ((ensureOther cs).map (fun e => e.2.products.length)).sum
      = (cs.map (fun e => e.2.products.length)).sum := by
  unfold ensureOther
  by_cases h : ((cs.map Prod.fst).contains "other") = true
  · rw [if_pos h]
  · rw [if_neg h]
    simp

theorem ensureOther_contains (cs : List (String × CleanupRun.CFile)) :
    (((ensureOther cs).map Prod.fst).contains "other") = true := by
  unfold ensureOther
  by_cases h : ((cs.map Prod.fst).contains "other") = true
  · rw [if_pos h]
    exact h
  · rw [if_neg h]
    simp

theorem addAll_sum (ps : List Cleanup.CProduct) :
    ∀ cs : List (String × CleanupRun.CFile),
      ((cs.map Prod.fst).contains "other") = true →
      ((addAllToOther cs ps).map (fun e => e.2.products.length)).sum
        = ((cs.map (fun e => e.2.products.length)).sum) + ps.length := by
  induction ps with
  | nil => intro cs h; simp [addAllToOther]
  | cons p ps ih =>
      intro cs h
      have hstep : addAllToOther cs (p :: ps)
          = addAllToOther (addToChild cs "other" p) ps := by
        unfold addAllToOther
        rw [List.foldl_cons]
      rw [hstep, ih (addToChild cs "other" p)
          (by rw [addToChild_fst]; exact h),
        addToChild_sum "other" p cs h]
      simp [List.length_cons]
      omega

theorem afterUnmatched_sum (parent : CleanupRun.CFile)
    (children : List (String × CleanupRun.CFile)) :
    ((afterUnmatched parent children).map (fun e => e.2.products.length)).sum
      = (children.map (fun e => e.2.products.length)).sum
        + parent.products.length := by
  have hd : ((distributed parent children).1.map
        (fun e => e.2.products.length)).sum
      + (distributed parent children).2.length
      = (children.map (fun e => e.2.products.length)).sum
        + parent.products.length := by
    have h0 := distFold_sum parent.products (children, [])
    dsimp only at h0
    simpa using h0
  unfold afterUnmatched
  by_cases he : ((distributed parent children).2.isEmpty) = true
  · rw [if_pos he]
    have hz : (distributed parent children).2.length = 0 := by
      cases hE : (distributed parent children).2 with
      | nil => rfl
      | cons a t => rw [hE] at he; exact absurd he (by simp)
    omega
  · rw [if_neg he]
    rw [addAll_sum _ _ (ensureOther_contains _), ensureOther_sum]
    omega

theorem saveChildren_products (e : String × CleanupRun.CFile) :
    ((if e.2.products.isEmpty then e
      else (e.1, ⟨e.2.products, e.2.products.length⟩))
        : String × CleanupRun.CFile).2.products.length
    = e.2.products.length := by
  by_cases hE : (e.2.products.isEmpty) = true
  · rw [if_pos hE]
  · rw [if_neg hE]

theorem saveChildren_lens (cs : List (String × CleanupRun.CFile)) :
    (saveChildren cs).map (fun e => e.2.products.length)
      = cs.map (fun e => e.2.products.length) := by
  induction cs with
  | nil => rfl
  | cons e t ih =>
      simp only [saveChildren, List.map_cons] at ih ⊢
      rw [saveChildren_products e, ih]

theorem filterMap_snd_sum :
    ∀ cs : List (String × CleanupRun.CFile),
      ((cs.filterMap (fun e =>
          if e.2.products.isEmpty then none
          else some (e.1, e.2.products.length))).map Prod.snd).sum
      = (cs.map (fun e => e.2.products.length)).sum := by
  intro cs
  induction cs with
  | nil => rfl
  | cons e t ih =>
      rw [List.filterMap_cons]
      by_cases hE : (e.2.products.isEmpty) = true
      · rw [if_pos hE]
        dsimp only
        rw [ih, List.map_cons, List.sum_cons]
        have h0 : e.2.products.length = 0 := by
          cases hp : e.2.products with
          | nil => rfl
          | cons a l => rw [hp] at hE; exact absurd hE (by simp)
        omega
      · rw [if_neg hE]
        dsimp only
        rw [List.map_cons, List.sum_cons, ih, List.map_cons, List.sum_cons]

/-- The consolidation test fixture: a parent with one routable and two
unmatched products over two child files. -/
def wparent : CleanupRun.CFile :=
  ⟨[⟨"1", "GE French Door Refrigerator", "GE", "French Door"⟩,
    ⟨"2", "Mystery Gadget", "Acme", "Widgets"⟩,
    ⟨"3", "Mystery Gadget 2", "Acme", ""⟩], 3⟩

def wchildren : List (String × CleanupRun.CFile) :=
  [("french-door", ⟨[⟨"9", "LG French Door Refrigerator", "LG", "French Door"⟩], 1⟩),
   ("empty", ⟨[], 5⟩)]

def wexpected : ConsOut :=
  ⟨4, [("french-door", 2), ("other", 2)],
    [("french-door",
      ⟨[⟨"9", "LG French Door Refrigerator", "LG", "French Door"⟩,
        ⟨"1", "GE French Door Refrigerator", "GE", "French Door"⟩], 2⟩),
     ("empty", ⟨[], 5⟩),
     ("other",
      ⟨[⟨"2", "Mystery Gadget", "Acme", "Widgets"⟩,
        ⟨"3", "Mystery Gadget 2", "Acme", ""⟩], 2⟩)]⟩

end Consolidate

namespace Rebuild

/-- Two files holding the same product: the pre-consolidation split-data
state the repository can be in (the flat `refrigerators.json` and the nested
`refrigerators/` directory both populated). -/
def dupFiles : List (String × CleanupRun.CFile) :=
  [("appliances/refrigerators.json",
    ⟨[⟨"300000001", "French Door Refrigerator", "GE", "French Door"⟩], 1⟩),
   ("appliances/refrigerators/french-door.json",
    ⟨[⟨"300000001", "French Door Refrigerator", "GE", "French Door"⟩], 1⟩)]

/-- An index tree with a hand-maintained parent count and a node without a
backing file. -/
def staleIndex : List CatNode :=
  [CatNode.mk "ghost" 42 [],
   CatNode.mk "appliances" 7 [CatNode.mk "appliances/refrigerators" 9 []]]

end Rebuild

/-- C3 counterexample: the rebuilt root total sums `len(products)` over every
file, so a product stored in two files (a split parent/child state) is
counted twice; and `update_category` keeps the stored, hand-maintained count
of every node whose id has no file — the `ghost` node keeps 42 and the
`appliances` parent keeps 7 while its only child holds 1 product. -/
theorem C3_counterexample_double_count :
    Rebuild.total_products Rebuild.dupFiles = 2
    ∧ CleanupRun.idsOf Rebuild.dupFiles = ["300000001", "300000001"]
    ∧ Rebuild.updateList (Rebuild.get_category_counts Rebuild.dupFiles)
        Rebuild.staleIndex
      = [Rebuild.CatNode.mk "ghost" 42 [],
         Rebuild.CatNode.mk "appliances" 7
          [Rebuild.CatNode.mk "appliances/refrigerators" 1 []]] :=
  ⟨by decide, by decide, rfl⟩

/-- C3: one `consolidate_category` run really does rebuild consistent counts
for the subtree it touches — the parent's recomputed `pageInfo.totalResults`
equals the sum of the final child files' product counts, equals the sum of
the `productCount` entries it writes into `subcategories`, and equals the
parent's old products plus the original child files' products (nothing lost
or double-counted by the distribution). -/
theorem C3_consolidation_count_consistency (parent : CleanupRun.CFile)
    (children : List (String × CleanupRun.CFile)) (out : Consolidate.ConsOut)
    (h : Consolidate.consolidate_category parent children = some out) :
    out.parentTotal = (out.children.map (fun e => e.2.products.length)).sum
    ∧ out.parentTotal = (out.subcats.map Prod.snd).sum
    ∧ out.parentTotal
      = parent.products.length
        + (children.map (fun e => e.2.products.length)).sum := by
  unfold Consolidate.consolidate_category at h
  by_cases hE : (parent.products.isEmpty) = true
  · rw [if_pos hE] at h
    exact Option.noConfusion h
  · rw [if_neg hE] at h
    have hout := (Option.some.inj h).symm
    subst hout
    refine ⟨?_, ?_, ?_⟩
    · dsimp only
      rw [Consolidate.saveChildren_lens]
    · dsimp only
      rw [Consolidate.filterMap_snd_sum]
      have hperm := List.perm_insertionSort
        (fun a b : String × CleanupRun.CFile =>
          Consolidate.lexLe a.1.data b.1.data = true)
        (Consolidate.afterUnmatched parent children)
      exact ((hperm.map (fun e => e.2.products.length)).sum_eq).symm
    · dsimp only
      rw [Consolidate.afterUnmatched_sum]
      omega

/-- Concrete instance of C3's amended count consistency on the consolidation
fixture. -/
theorem C3_consolidation_count_consistency_witness :
    Consolidate.consolidate_category Consolidate.wparent Consolidate.wchildren
      = some Consolidate.wexpected
    ∧ (Consolidate.wexpected.parentTotal
        = (Consolidate.wexpected.children.map
            (fun e => e.2.products.length)).sum
      ∧ Consolidate.wexpected.parentTotal
        = (Consolidate.wexpected.subcats.map Prod.snd).sum
      ∧ Consolidate.wexpected.parentTotal
        = Consolidate.wparent.products.length
          + (Consolidate.wchildren.map (fun e => e.2.products.length)).sum) :=
  ⟨by decide,
    C3_consolidation_count_consistency Consolidate.wparent Consolidate.wchildren
      Consolidate.wexpected (by decide)⟩
